import Mathlib

/-!
Verification development for a QR-code generator's encoding layer and
local-storage history store.

Modelling conventions, used throughout:

* JavaScript strings are modelled as `List Char` (abbreviated `Str`);
  `str` converts a Lean string literal to this representation.
* Optional string fields (`field?: string` in the source's interfaces) are
  modelled as plain `Str`, with the empty string playing the role of a
  missing field.  Every access to such a field in the source goes through a
  JavaScript truthiness test (`if (data.field)`) or through `field || ''`,
  for which the empty string and `undefined` are interchangeable.
* A JavaScript function that can throw is modelled with `Except`, where
  `Except.error` is a thrown exception.
* Numeric latitude/longitude values are modelled as integers; no claim in
  scope depends on fractional coordinate formatting.
* `localStorage` is modelled as `Option StorageSchema`: `none` is an empty
  (or unparseable) storage slot, `some schema` a persisted document.
  Effects that the source obtains from the environment (current time,
  fresh ids, renderer thumbnails) are explicit arguments.
-/

namespace QRGen

/-- Characters of a JavaScript string. -/
abbrev Str := List Char

/-- Converts a Lean string literal to the `List Char` representation. -/
def str (s : String) : Str := s.data

/-- Left brace character, written by code point. -/
def lb : Char := '\x7b'

/-- Right brace character, written by code point. -/
def rb : Char := '\x7d'

/-- Global single-character replacement, as JavaScript's
`value.replace(/c/g, repl)`: each occurrence of `target` is replaced by
`repl`, scanning left to right without reprocessing replacements. -/
def replaceChar (target : Char) (repl : Str) : Str → Str
  | [] => []
  | c :: s => (if c = target then repl else [c]) ++ replaceChar target repl s

/-- Array.prototype.join with a single-character separator. -/
def joinChar (sep : Char) : List Str → Str
  | [] => []
  | [l] => l
  | l :: ls => l ++ sep :: joinChar sep ls

/-- Array.prototype.join with the two-character CRLF separator. -/
def joinCRLF : List Str → Str
  | [] => []
  | [l] => l
  | l :: ls => l ++ '\r' :: '\n' :: joinCRLF ls

/-- Splits a string at each CRLF sequence (the line structure of a
CRLF-joined document). -/
def splitOnCRLF : Str → List Str
  | [] => [[]]
  | '\r' :: '\n' :: rest => [] :: splitOnCRLF rest
  | c :: rest =>
    match splitOnCRLF rest with
    | [] => [[c]]
    | l :: ls => (c :: l) :: ls

/-- Splits a string at each occurrence of a single separator character. -/
def splitOnChar (sep : Char) : Str → List Str
  | [] => [[]]
  | c :: rest =>
    if c = sep then [] :: splitOnChar sep rest
    else
      match splitOnChar sep rest with
      | [] => [[c]]
      | l :: ls => (c :: l) :: ls

/-- JavaScript `String.prototype.trim`: strips leading and trailing
whitespace. -/
def jsTrim (s : Str) : Str :=
  ((s.dropWhile Char.isWhitespace).reverse.dropWhile Char.isWhitespace).reverse

/-! ### Data model (src/types/qr-types.ts) -/

/-- Color configuration from `qr-types.ts`. -/
structure ColorConfig where
  foreground : Str
  background : Str
deriving DecidableEq

/-- Phone tag of a vCard phone entry. -/
inductive PhoneType where
  | mobile | home | work | fax | other
deriving DecidableEq

/-- Email tag of a vCard email entry. -/
inductive EmailType where
  | personal | work | other
deriving DecidableEq

/-- Address tag of a vCard address entry. -/
inductive AddressType where
  | home | work | postal | other
deriving DecidableEq

/-- A vCard phone entry. -/
structure VCardPhone where
  type : PhoneType
  number : Str
deriving DecidableEq

/-- A vCard email entry. -/
structure VCardEmail where
  type : EmailType
  address : Str
deriving DecidableEq

/-- A vCard address entry; the optional string components are modelled as
possibly-empty strings. -/
structure VCardAddress where
  type : AddressType
  street : Str
  city : Str
  state : Str
  postalCode : Str
  country : Str
deriving DecidableEq

/-- The optional social-media bundle; an absent bundle is modelled by all
components empty. -/
structure VCardSocialMedia where
  linkedin : Str
  twitter : Str
  facebook : Str
  instagram : Str
  website : Str
deriving DecidableEq

/-- VCard record.  The source interface's `prefix` field is renamed `pfx`
(`prefix` is reserved in Lean); optional fields are possibly-empty strings. -/
structure VCardData where
  firstName : Str
  middleName : Str
  lastName : Str
  pfx : Str
  suffix : Str
  nickname : Str
  birthday : Str
  photo : Str
  phones : List VCardPhone
  emails : List VCardEmail
  organization : Str
  jobTitle : Str
  department : Str
  role : Str
  logo : Str
  workWebsite : Str
  addresses : List VCardAddress
  socialMedia : VCardSocialMedia
  notes : Str
deriving DecidableEq

/-- MeCard record. -/
structure MeCardData where
  name : Str
  phone : Str
  email : Str
  url : Str
  address : Str
  note : Str
deriving DecidableEq

/-- The runtime QR record: the eight variants of the `QRData` union of
`qr-types.ts`, plus `unknown` for a runtime value whose `type` discriminant
is not one of the eight known tags (the source's switch statements receive
such values through unchecked casts). -/
inductive QRData where
  | url (url : Str)
  | text (text : Str)
  | email (email subject body : Str)
  | phone (phone : Str)
  | sms (phone message : Str)
  | location (latitude longitude : Int) (address : Str)
  | vcard (v : VCardData)
  | mecard (m : MeCardData)
  | unknown (tag : Str)
deriving DecidableEq

/-- The `type` discriminant string of a record. -/
def typeTag : QRData → Str
  | .url _ => str "url"
  | .text _ => str "text"
  | .email _ _ _ => str "email"
  | .phone _ => str "phone"
  | .sms _ _ => str "sms"
  | .location _ _ _ => str "location"
  | .vcard _ => str "vcard"
  | .mecard _ => str "mecard"
  | .unknown tag => tag

/-- A history item (`qr-types.ts`). -/
structure HistoryItem where
  id : Str
  timestamp : Nat
  type : Str
  data : QRData
  colors : ColorConfig
  thumbnail : Str
deriving DecidableEq

/-- The persisted storage document (`qr-types.ts`). -/
structure StorageSchema where
  version : Nat
  items : List HistoryItem
deriving DecidableEq

/-! ### MeCard encoder (src/lib/mecard-encoder.ts) -/

/-- Escapes special characters in MeCard values
(`escapeMeCardValue`): backslash, colon, semicolon, comma, double quote,
in this order. -/
def escapeMeCardValue (value : Str) : Str :=
  replaceChar '"' ['\\', '"']
    (replaceChar ',' ['\\', ',']
      (replaceChar ';' ['\\', ';']
        (replaceChar ':' ['\\', ':']
          (replaceChar '\\' ['\\', '\\'] value))))

/-- The `KEY:escaped-value` tokens of `encodeMeCard`, emitted for the
present fields in fixed order. -/
def mecardFields (data : MeCardData) : List Str :=
  (if data.name ≠ [] then [str "N:" ++ escapeMeCardValue data.name] else []) ++
  (if data.phone ≠ [] then [str "TEL:" ++ escapeMeCardValue data.phone] else []) ++
  (if data.email ≠ [] then [str "EMAIL:" ++ escapeMeCardValue data.email] else []) ++
  (if data.url ≠ [] then [str "URL:" ++ escapeMeCardValue data.url] else []) ++
  (if data.address ≠ [] then [str "ADR:" ++ escapeMeCardValue data.address] else []) ++
  (if data.note ≠ [] then [str "NOTE:" ++ escapeMeCardValue data.note] else [])

/-- Encodes MeCard data (`encodeMeCard`): joins the field tokens with `;`
and wraps as `MECARD:...;;`. -/
def encodeMeCard (data : MeCardData) : Str :=
  str "MECARD:" ++ joinChar ';' (mecardFields data) ++ str ";;"

/-- Validates MeCard data (`validateMeCard`): name required non-blank and at
least one additional field present. -/
def validateMeCard (data : MeCardData) : Bool :=
  if data.name = [] ∨ jsTrim data.name = [] then false
  else data.phone ≠ [] ∨ data.email ≠ [] ∨ data.url ≠ [] ∨
    data.address ≠ [] ∨ data.note ≠ []

/-! ### VCard encoder (src/lib/vcard-encoder.ts) -/

/-- Escapes special characters in vCard values (`escapeVCardValue`):
backslash, comma, semicolon, newline, in this order. -/
def escapeVCardValue (value : Str) : Str :=
  replaceChar '\n' ['\\', 'n']
    (replaceChar ';' ['\\', ';']
      (replaceChar ',' ['\\', ',']
        (replaceChar '\\' ['\\', '\\'] value)))

/-- Maps a phone tag to its vCard type constant (`mapPhoneType`). -/
def mapPhoneType : PhoneType → Str
  | .mobile => str "CELL"
  | .home => str "HOME"
  | .work => str "WORK"
  | .fax => str "FAX"
  | .other => str "VOICE"

/-- Maps an email tag to its vCard type constant (`mapEmailType`). -/
def mapEmailType : EmailType → Str
  | .personal => str "HOME"
  | .work => str "WORK"
  | .other => str "INTERNET"

/-- Maps an address tag to its vCard type constant (`mapAddressType`). -/
def mapAddressType : AddressType → Str
  | .home => str "HOME"
  | .work => str "WORK"
  | .postal => str "POSTAL"
  | .other => str "INTL"

/-- Strips a leading `data:image/<subtype>;base64,` data-URL marker, as the
source's `replace(/^data:image\/[^;]+;base64,/, '')`. -/
def stripDataUrlMark (s : Str) : Str :=
  if (str "data:image/").isPrefixOf s then
    let rest := s.drop (str "data:image/").length
    let seg := rest.takeWhile (fun c => c ≠ ';')
    let rest2 := rest.drop seg.length
    if seg ≠ [] ∧ (str ";base64,").isPrefixOf rest2 then
      rest2.drop (str ";base64,").length
    else s
  else s

/-- The full-name (`FN`) value: the present name parts joined by single
spaces (`filter(Boolean).join(' ')`). -/
def vcardFullName (data : VCardData) : Str :=
  joinChar ' '
    (([data.pfx, data.firstName, data.middleName, data.lastName,
       data.suffix]).filter (fun part => part ≠ []))

/-- The structured-name (`N`) value:
`last;first;middle;prefix;suffix` with absent parts as empty slots. -/
def vcardStructuredName (data : VCardData) : Str :=
  joinChar ';'
    [data.lastName, data.firstName, data.middleName, data.pfx, data.suffix]

/-- The optional and repeated lines of `encodeVCard`, in source push
order: everything between the `N:` line and the `END:VCARD` footer. -/
def vcardOptLines (data : VCardData) : List Str :=
  (if data.nickname ≠ [] then [str "NICKNAME:" ++ escapeVCardValue data.nickname] else []) ++
    (if data.birthday ≠ [] then [str "BDAY:" ++ data.birthday.filter (fun c => c ≠ '-')] else []) ++
    (if data.photo ≠ [] then [str "PHOTO;ENCODING=b;TYPE=JPEG:" ++ stripDataUrlMark data.photo] else []) ++
    data.phones.map (fun phone =>
      str "TEL;TYPE=" ++ mapPhoneType phone.type ++ ':' :: escapeVCardValue phone.number) ++
    data.emails.map (fun email =>
      str "EMAIL;TYPE=" ++ mapEmailType email.type ++ ':' :: escapeVCardValue email.address) ++
    (if data.organization ≠ [] then [str "ORG:" ++ escapeVCardValue data.organization] else []) ++
    (if data.jobTitle ≠ [] then [str "TITLE:" ++ escapeVCardValue data.jobTitle] else []) ++
    (if data.department ≠ [] then [str "X-DEPARTMENT:" ++ escapeVCardValue data.department] else []) ++
    (if data.role ≠ [] then [str "ROLE:" ++ escapeVCardValue data.role] else []) ++
    (if data.logo ≠ [] then [str "LOGO;ENCODING=b;TYPE=JPEG:" ++ stripDataUrlMark data.logo] else []) ++
    (if data.workWebsite ≠ [] then [str "URL;TYPE=WORK:" ++ escapeVCardValue data.workWebsite] else []) ++
    data.addresses.map (fun address =>
      str "ADR;TYPE=" ++ mapAddressType address.type ++ ':' ::
        escapeVCardValue (joinChar ';'
          [[], [], address.street, address.city, address.state,
           address.postalCode, address.country])) ++
    (if data.socialMedia.linkedin ≠ [] then
      [str "X-SOCIALPROFILE;TYPE=linkedin:" ++ escapeVCardValue data.socialMedia.linkedin] else []) ++
    (if data.socialMedia.twitter ≠ [] then
      [str "X-SOCIALPROFILE;TYPE=twitter:" ++ escapeVCardValue data.socialMedia.twitter] else []) ++
    (if data.socialMedia.facebook ≠ [] then
      [str "X-SOCIALPROFILE;TYPE=facebook:" ++ escapeVCardValue data.socialMedia.facebook] else []) ++
    (if data.socialMedia.instagram ≠ [] then
      [str "X-SOCIALPROFILE;TYPE=instagram:" ++ escapeVCardValue data.socialMedia.instagram] else []) ++
    (if data.socialMedia.website ≠ [] then
      [str "URL:" ++ escapeVCardValue data.socialMedia.website] else []) ++
    (if data.notes ≠ [] then [str "NOTE:" ++ escapeVCardValue data.notes] else [])

/-- The complete line list of `encodeVCard`, in source push order. -/
def vcardLines (data : VCardData) : List Str :=
  [str "BEGIN:VCARD", str "VERSION:3.0",
   str "FN:" ++ escapeVCardValue (vcardFullName data),
   str "N:" ++ escapeVCardValue (vcardStructuredName data)] ++
  vcardOptLines data ++ [str "END:VCARD"]

/-- Encodes vCard data according to RFC 2426 shape (`encodeVCard`): builds
the line list in source push order and joins with CRLF. -/
def encodeVCard (data : VCardData) : Str :=
  joinCRLF (vcardLines data)

/-! ### Payload formatter (src/lib/qr-generator.ts) -/

/-- Concatenation of the images of a string-valued function, as JavaScript's
global single-character regex replacement and byte-level expansions do. -/
def concatMapStr {α : Type} (f : α → Str) : List α → Str
  | [] => []
  | a :: as => f a ++ concatMapStr f as

/-- Uppercase hexadecimal digit. -/
def upperHexDigit (n : Nat) : Char :=
  if n < 10 then Nat.digitChar n else Char.ofNat ('A'.toNat + (n - 10))

/-- UTF-8 code units of a character, as byte values. -/
def utf8Bytes (c : Char) : List Nat :=
  let n := c.toNat
  if n < 0x80 then [n]
  else if n < 0x800 then [0xC0 + n / 64, 0x80 + n % 64]
  else if n < 0x10000 then
    [0xE0 + n / 4096, 0x80 + (n / 64) % 64, 0x80 + n % 64]
  else
    [0xF0 + n / 262144, 0x80 + (n / 4096) % 64, 0x80 + (n / 64) % 64,
     0x80 + n % 64]

/-- Characters that JavaScript's `encodeURIComponent` leaves unencoded. -/
def isUnescapedURIChar (c : Char) : Bool :=
  (c.isAlpha ∧ c.toNat < 128) ∨ c.isDigit ∨
    c ∈ ['-', '_', '.', '!', '~', '*', '\'', '(', ')']

/-- JavaScript `encodeURIComponent`: percent-encodes every UTF-8 byte of
each character outside the unescaped set. -/
def encodeURIComponent (s : Str) : Str :=
  concatMapStr (fun c =>
    if isUnescapedURIChar c then [c]
    else concatMapStr (fun b => '%' :: [upperHexDigit (b / 16), upperHexDigit (b % 16)])
      (utf8Bytes c)) s

/-- Decimal digits of a natural number (structural, fuel-indexed). -/
def natToStrAux : Nat → Nat → Str
  | 0, _ => []
  | fuel + 1, n =>
    if n < 10 then [Nat.digitChar n]
    else natToStrAux fuel (n / 10) ++ [Nat.digitChar (n % 10)]

/-- Decimal representation of a natural number. -/
def natToStr (n : Nat) : Str := natToStrAux (n + 1) n

/-- Decimal representation of an integer. -/
def intToStr (i : Int) : Str :=
  if i < 0 then '-' :: natToStr i.natAbs else natToStr i.toNat

/-- Formats email data as a `mailto:` URI (`formatEmailData`). -/
def formatEmailData (email subject body : Str) : Str :=
  let params : List Str :=
    (if subject ≠ [] then [str "subject=" ++ encodeURIComponent subject] else []) ++
    (if body ≠ [] then [str "body=" ++ encodeURIComponent body] else [])
  str "mailto:" ++ email ++
    (if params.length > 0 then '?' :: joinChar '&' params else [])

/-- Formats SMS data as an `sms:` URI (`formatSMSData`). -/
def formatSMSData (phone message : Str) : Str :=
  str "sms:" ++ phone ++
    (if message ≠ [] then str "?body=" ++ encodeURIComponent message else [])

/-- Formats location data as a `geo:` URI (`formatLocationData`). -/
def formatLocationData (latitude longitude : Int) : Str :=
  str "geo:" ++ intToStr latitude ++ ',' :: intToStr longitude

/-- Formats a record into its payload string (`formatQRData`).  The
`default` branch of the source's switch throws
`new Error("Unsupported QR type: " + type)`; the thrown exception is
modelled as `Except.error`. -/
def formatQRData : QRData → Except Str Str
  | .url url => .ok url
  | .text text => .ok text
  | .email email subject body => .ok (formatEmailData email subject body)
  | .phone phone => .ok (str "tel:" ++ phone)
  | .sms phone message => .ok (formatSMSData phone message)
  | .location latitude longitude _ => .ok (formatLocationData latitude longitude)
  | .vcard v => .ok (encodeVCard v)
  | .mecard m => .ok (encodeMeCard m)
  | .unknown tag => .error (str "Unsupported QR type: " ++ tag)

/-- QR generation options (`QRGenerationOptions` of `qr-types.ts`). -/
structure QRGenerationOptions where
  data : Str
  colors : ColorConfig
  size : Nat
  errorCorrectionLevel : Str
deriving DecidableEq

/-- The data-to-options part of `generateQRCode`: it calls `formatQRData`
outside any try/catch, so a thrown unsupported-type error propagates to the
caller. -/
def generateQRCodeOptions (data : QRData) (colors : ColorConfig)
    (size : Nat) : Except Str QRGenerationOptions :=
  match formatQRData data with
  | .error e => .error e
  | .ok qrData => .ok ⟨qrData, colors, size, str "M"⟩

/-- Result of `validateQRData`. -/
structure ValidationResult where
  valid : Bool
  error : Option Str
deriving DecidableEq

/-- The source's `isValidEmail` regex `^[^\s@]+@[^\s@]+\.[^\s@]+$`:
exactly one `@`, no whitespace, a non-empty local part, and a dot strictly
inside the domain part. -/
def isValidEmail (s : Str) : Bool :=
  match splitOnChar '@' s with
  | [a, b] =>
    a ≠ [] ∧ a.all (fun c => ¬c.isWhitespace) ∧
      b.all (fun c => ¬c.isWhitespace) ∧ '.' ∈ (b.drop 1).dropLast
  | _ => false

/-- Validates a record before generation (`validateQRData`).  The host URL
parser used by the `url` branch (`new URL(...)`) is an external
collaborator and is passed in as the oracle `urlOk`.  The switch has no
`default` branch, so an unknown discriminant falls through to the final
`{ valid: true }`. -/
def validateQRData (urlOk : Str → Bool) : QRData → ValidationResult
  | .url url =>
    if url = [] ∨ jsTrim url = [] then ⟨false, some (str "URL is required")⟩
    else if ¬urlOk url then ⟨false, some (str "Invalid URL format")⟩
    else ⟨true, none⟩
  | .text text =>
    if text = [] ∨ jsTrim text = [] then ⟨false, some (str "Text is required")⟩
    else ⟨true, none⟩
  | .email email _ _ =>
    if email = [] ∨ ¬isValidEmail email then
      ⟨false, some (str "Valid email address is required")⟩
    else ⟨true, none⟩
  | .phone phone =>
    if phone = [] ∨ jsTrim phone = [] then
      ⟨false, some (str "Phone number is required")⟩
    else ⟨true, none⟩
  | .sms phone _ =>
    if phone = [] ∨ jsTrim phone = [] then
      ⟨false, some (str "Phone number is required")⟩
    else ⟨true, none⟩
  | .location latitude longitude _ =>
    if latitude < -90 ∨ latitude > 90 then
      ⟨false, some (str "Latitude must be between -90 and 90")⟩
    else if longitude < -180 ∨ longitude > 180 then
      ⟨false, some (str "Longitude must be between -180 and 180")⟩
    else ⟨true, none⟩
  | .vcard v =>
    if v.firstName = [] ∨ jsTrim v.firstName = [] then
      ⟨false, some (str "First name is required for VCard")⟩
    else if v.lastName = [] ∨ jsTrim v.lastName = [] then
      ⟨false, some (str "Last name is required for VCard")⟩
    else ⟨true, none⟩
  | .mecard m =>
    if m.name = [] ∨ jsTrim m.name = [] then
      ⟨false, some (str "Name is required for MeCard")⟩
    else ⟨true, none⟩
  | .unknown _ => ⟨true, none⟩

/-! ### JSON serialization (JavaScript `JSON.stringify`, used by the
history store for its duplicate check and its `Blob` byte-size
accounting) -/

/-- JSON string escaping of one character, as `JSON.stringify` performs on
string values. -/
def jsonEscapeChar (c : Char) : Str :=
  if c = '"' then ['\\', '"']
  else if c = '\\' then ['\\', '\\']
  else if c = '\x08' then ['\\', 'b']
  else if c = '\x0c' then ['\\', 'f']
  else if c = '\n' then ['\\', 'n']
  else if c = '\r' then ['\\', 'r']
  else if c = '\t' then ['\\', 't']
  else if c.toNat < 32 then
    ['\\', 'u', '0', '0', Nat.digitChar (c.toNat / 16), Nat.digitChar (c.toNat % 16)]
  else [c]

/-- A JSON string literal: quoted, escaped content. -/
def jsonQuote (s : Str) : Str := '"' :: concatMapStr jsonEscapeChar s ++ ['"']

/-- A JSON object from already-serialized `"key":value` members. -/
def jsonObj (members : List Str) : Str := lb :: joinChar ',' members ++ [rb]

/-- A JSON array from already-serialized elements. -/
def jsonArr (elems : List Str) : Str := '[' :: joinChar ',' elems ++ [']']

/-- One `"key":value` member of a JSON object. -/
def jmem (key : String) (value : Str) : Str := '"' :: str key ++ '"' :: ':' :: value

/-- Discriminant string of a phone tag, as persisted. -/
def phoneTagStr : PhoneType → Str
  | .mobile => str "mobile"
  | .home => str "home"
  | .work => str "work"
  | .fax => str "fax"
  | .other => str "other"

/-- Discriminant string of an email tag, as persisted. -/
def emailTagStr : EmailType → Str
  | .personal => str "personal"
  | .work => str "work"
  | .other => str "other"

/-- Discriminant string of an address tag, as persisted. -/
def addressTagStr : AddressType → Str
  | .home => str "home"
  | .work => str "work"
  | .postal => str "postal"
  | .other => str "other"

/-- JSON serialization of a vCard phone entry. -/
def jsonOfVCardPhone (p : VCardPhone) : Str :=
  jsonObj [jmem "type" (jsonQuote (phoneTagStr p.type)),
           jmem "number" (jsonQuote p.number)]

/-- JSON serialization of a vCard email entry. -/
def jsonOfVCardEmail (e : VCardEmail) : Str :=
  jsonObj [jmem "type" (jsonQuote (emailTagStr e.type)),
           jmem "address" (jsonQuote e.address)]

/-- JSON serialization of a vCard address entry. -/
def jsonOfVCardAddress (a : VCardAddress) : Str :=
  jsonObj [jmem "type" (jsonQuote (addressTagStr a.type)),
           jmem "street" (jsonQuote a.street),
           jmem "city" (jsonQuote a.city),
           jmem "state" (jsonQuote a.state),
           jmem "postalCode" (jsonQuote a.postalCode),
           jmem "country" (jsonQuote a.country)]

/-- JSON serialization of the social-media bundle. -/
def jsonOfSocialMedia (s : VCardSocialMedia) : Str :=
  jsonObj [jmem "linkedin" (jsonQuote s.linkedin),
           jmem "twitter" (jsonQuote s.twitter),
           jmem "facebook" (jsonQuote s.facebook),
           jmem "instagram" (jsonQuote s.instagram),
           jmem "website" (jsonQuote s.website)]

/-- JSON serialization of a record (`JSON.stringify(data)`), with member
order following the interface declarations of `qr-types.ts`. -/
def jsonOfQRData : QRData → Str
  | .url url =>
    jsonObj [jmem "type" (jsonQuote (str "url")), jmem "url" (jsonQuote url)]
  | .text text =>
    jsonObj [jmem "type" (jsonQuote (str "text")), jmem "text" (jsonQuote text)]
  | .email email subject body =>
    jsonObj [jmem "type" (jsonQuote (str "email")),
             jmem "email" (jsonQuote email),
             jmem "subject" (jsonQuote subject),
             jmem "body" (jsonQuote body)]
  | .phone phone =>
    jsonObj [jmem "type" (jsonQuote (str "phone")), jmem "phone" (jsonQuote phone)]
  | .sms phone message =>
    jsonObj [jmem "type" (jsonQuote (str "sms")),
             jmem "phone" (jsonQuote phone),
             jmem "message" (jsonQuote message)]
  | .location latitude longitude address =>
    jsonObj [jmem "type" (jsonQuote (str "location")),
             jmem "latitude" (intToStr latitude),
             jmem "longitude" (intToStr longitude),
             jmem "address" (jsonQuote address)]
  | .vcard v =>
    jsonObj [jmem "type" (jsonQuote (str "vcard")),
             jmem "firstName" (jsonQuote v.firstName),
             jmem "middleName" (jsonQuote v.middleName),
             jmem "lastName" (jsonQuote v.lastName),
             jmem "prefix" (jsonQuote v.pfx),
             jmem "suffix" (jsonQuote v.suffix),
             jmem "nickname" (jsonQuote v.nickname),
             jmem "birthday" (jsonQuote v.birthday),
             jmem "photo" (jsonQuote v.photo),
             jmem "phones" (jsonArr (v.phones.map jsonOfVCardPhone)),
             jmem "emails" (jsonArr (v.emails.map jsonOfVCardEmail)),
             jmem "organization" (jsonQuote v.organization),
             jmem "jobTitle" (jsonQuote v.jobTitle),
             jmem "department" (jsonQuote v.department),
             jmem "role" (jsonQuote v.role),
             jmem "logo" (jsonQuote v.logo),
             jmem "workWebsite" (jsonQuote v.workWebsite),
             jmem "addresses" (jsonArr (v.addresses.map jsonOfVCardAddress)),
             jmem "socialMedia" (jsonOfSocialMedia v.socialMedia),
             jmem "notes" (jsonQuote v.notes)]
  | .mecard m =>
    jsonObj [jmem "type" (jsonQuote (str "mecard")),
             jmem "name" (jsonQuote m.name),
             jmem "phone" (jsonQuote m.phone),
             jmem "email" (jsonQuote m.email),
             jmem "url" (jsonQuote m.url),
             jmem "address" (jsonQuote m.address),
             jmem "note" (jsonQuote m.note)]
  | .unknown tag =>
    jsonObj [jmem "type" (jsonQuote tag)]

/-- JSON serialization of a color configuration. -/
def jsonOfColors (c : ColorConfig) : Str :=
  jsonObj [jmem "foreground" (jsonQuote c.foreground),
           jmem "background" (jsonQuote c.background)]

/-- JSON serialization of a history item. -/
def jsonOfItem (item : HistoryItem) : Str :=
  jsonObj [jmem "id" (jsonQuote item.id),
           jmem "timestamp" (natToStr item.timestamp),
           jmem "type" (jsonQuote item.type),
           jmem "data" (jsonOfQRData item.data),
           jmem "colors" (jsonOfColors item.colors),
           jmem "thumbnail" (jsonQuote item.thumbnail)]

/-- JSON serialization of the whole storage document
(`JSON.stringify(schema)`). -/
def jsonOfSchema (schema : StorageSchema) : Str :=
  jsonObj [jmem "version" (natToStr schema.version),
           jmem "items" (jsonArr (schema.items.map jsonOfItem))]

/-- UTF-8 byte length of a string, as `new Blob([s]).size` measures it. -/
def byteLen (s : Str) : Nat := (s.map Char.utf8Size).sum

/-! ### History store (src/lib/local-storage.ts) -/

/-- Current storage schema version. -/
def STORAGE_VERSION : Nat := 1

/-- Maximum number of retained history items. -/
def MAX_ITEMS : Nat := 50

/-- Maximum serialized storage size in bytes (5 MiB). -/
def MAX_STORAGE_SIZE : Nat := 5 * 1024 * 1024

/-- The persistent slot holding the storage document: `none` when absent or
unreadable. -/
abbrev Store := Option StorageSchema

/-- Creates an empty storage schema (`createEmptySchema`). -/
def createEmptySchema : StorageSchema := ⟨STORAGE_VERSION, []⟩

/-- Schema migration (`migrateSchema`): any version mismatch discards the
old data. -/
def migrateSchema (_oldSchema : StorageSchema) : StorageSchema :=
  createEmptySchema

/-- Loads the storage document (`loadSchema`): empty when absent, migrated
(reset) on version mismatch. -/
def loadSchema (store : Store) : StorageSchema :=
  match store with
  | none => createEmptySchema
  | some schema =>
    if schema.version ≠ STORAGE_VERSION then migrateSchema schema else schema

/-- Persists the storage document (`saveSchema`). -/
def saveSchema (schema : StorageSchema) : Store := some schema

/-- Serialized byte size of the persisted document (`getStorageSize`). -/
def getStorageSize (store : Store) : Nat :=
  byteLen (jsonOfSchema (loadSchema store))

/-- The eviction loop of `enforceStorageLimit`, with fuel bounding the
number of iterations: while the serialized size exceeds
`MAX_STORAGE_SIZE` and more than one item remains, drop the last (oldest)
item. -/
def enforceAux : Nat → StorageSchema → StorageSchema
  | 0, schema => schema
  | fuel + 1, schema =>
    if byteLen (jsonOfSchema schema) > MAX_STORAGE_SIZE ∧ schema.items.length > 1 then
      enforceAux fuel ⟨schema.version, schema.items.dropLast⟩
    else schema

/-- Enforces the storage size limit by removing oldest items
(`enforceStorageLimit`).  Each loop iteration removes one item, so the item
count bounds the iterations. -/
def enforceStorageLimit (schema : StorageSchema) : StorageSchema :=
  enforceAux schema.items.length schema

/-- Saves a generated QR code to history (`saveToHistory`).  The thumbnail
produced by the renderer, the current time and the freshly generated id
are explicit arguments; the result pairs the returned value with the
resulting persistent slot. -/
def saveToHistory (data : QRData) (colors : ColorConfig) (thumbnail : Str)
    (now : Nat) (newId : Str) (store : Store) :
    Option HistoryItem × Store :=
  let schema := loadSchema store
  let isDuplicate := schema.items.any (fun item =>
    decide (item.type = typeTag data ∧ jsonOfQRData item.data = jsonOfQRData data))
  if isDuplicate then (none, store)
  else
    let historyItem : HistoryItem :=
      ⟨newId, now, typeTag data, data, colors, thumbnail⟩
    let items1 := historyItem :: schema.items
    let items2 := if items1.length > MAX_ITEMS then items1.take MAX_ITEMS else items1
    let schema2 := enforceStorageLimit ⟨schema.version, items2⟩
    (some historyItem, saveSchema schema2)

/-- Retrieves all history items (`getHistory`). -/
def getHistory (store : Store) : List HistoryItem :=
  (loadSchema store).items

/-- Retrieves a single history item by id (`getHistoryItem`). -/
def getHistoryItem (id : Str) (store : Store) : Option HistoryItem :=
  (loadSchema store).items.find? (fun item => decide (item.id = id))

/-- Deletes a history item by id (`deleteHistoryItem`). -/
def deleteHistoryItem (id : Str) (store : Store) : Bool × Store :=
  let schema := loadSchema store
  let remaining := schema.items.filter (fun item => decide (item.id ≠ id))
  if remaining.length < schema.items.length then
    (true, saveSchema ⟨schema.version, remaining⟩)
  else (false, store)

/-- Clears all history items (`clearHistory`). -/
def clearHistory (_store : Store) : Bool × Store :=
  (true, saveSchema ⟨STORAGE_VERSION, []⟩)

/-- Stable sort by timestamp, newest first: the source's
`sort((a, b) => b.timestamp - a.timestamp)` on an ES2019+ stable
`Array.prototype.sort`. -/
def sortByTimestampDesc (items : List HistoryItem) : List HistoryItem :=
  items.mergeSort (fun a b => decide (b.timestamp ≤ a.timestamp))

/-- An import payload after `JSON.parse`: the `version` and `items` fields
may each be missing or ill-typed (`items = none` models a non-array
`items` field). -/
structure ImportPayload where
  version : Option Nat
  items : Option (List HistoryItem)

/-- The merge loop of `importHistoryFromJSON`: appends each existing item
whose id is not already present in the accumulated merged list. -/
def mergeImportItems (importedItems existingItems : List HistoryItem) :
    List HistoryItem :=
  existingItems.foldl (fun merged existingItem =>
    if merged.any (fun item => decide (item.id = existingItem.id)) then merged
    else merged ++ [existingItem]) importedItems

/-- Imports history from a JSON backup (`importHistoryFromJSON`).  The
argument is the `JSON.parse` result: `none` when parsing threw.  A falsy
`version` or a non-array `items` fails validation; otherwise imported and
existing items are merged (id-deduplicated), sorted newest first,
truncated to `MAX_ITEMS` and persisted under the current version. -/
def importHistoryFromJSON (payload : Option ImportPayload) (store : Store) :
    Bool × Store :=
  match payload with
  | none => (false, store)
  | some schema =>
    let versionTruthy :=
      match schema.version with
      | none => false
      | some v => decide (v ≠ 0)
    match versionTruthy, schema.items with
    | false, _ => (false, store)
    | true, none => (false, store)
    | true, some importedItems =>
      let existingSchema := loadSchema store
      let mergedItems := mergeImportItems importedItems existingSchema.items
      let sortedItems := sortByTimestampDesc mergedItems
      let limitedItems := sortedItems.take MAX_ITEMS
      (true, saveSchema ⟨STORAGE_VERSION, limitedItems⟩)

/-- Modelled from the spec: `updateHistoryItem` is imported from the
local-storage module and called by the auto-save coordinator, but its
implementation is not among the provided sources.  Per §4.5 of the spec:
load the schema, locate the item by id (absent: return null); otherwise
regenerate the thumbnail, replace the timestamp with the current time and
the data/colors with the new values, keep the id and the item's position
in the list, persist, and return the updated item. -/
def updateHistoryItem (id : Str) (data : QRData) (colors : ColorConfig)
    (thumbnail : Str) (now : Nat) (store : Store) :
    Option HistoryItem × Store :=
  let schema := loadSchema store
  match schema.items.findIdx? (fun item => decide (item.id = id)) with
  | none => (none, store)
  | some k =>
    let updated : HistoryItem := ⟨id, now, typeTag data, data, colors, thumbnail⟩
    (some updated, saveSchema ⟨schema.version, schema.items.set k updated⟩)

/-! ### Claim-specific definitions -/

/-- Character-wise form of the MeCard escaping chain: the image of one
character under the five sequential replacements. -/
def mecardEscChar (c : Char) : Str :=
  if c = '\\' then ['\\', '\\']
  else if c = ':' then ['\\', ':']
  else if c = ';' then ['\\', ';']
  else if c = ',' then ['\\', ',']
  else if c = '"' then ['\\', '"']
  else [c]

/-- Character-wise form of the vCard escaping chain. -/
def vcardEscChar (c : Char) : Str :=
  if c = '\\' then ['\\', '\\']
  else if c = ',' then ['\\', ',']
  else if c = ';' then ['\\', ';']
  else if c = '\n' then ['\\', 'n']
  else [c]

/-- Modelled from the spec: the repository ships no unescape routine; §8
of the spec appeals to one as the inverse of the escaping primitive
(`unescape(encode(v)) == v`).  The canonical reading of the escaping
grammar: a backslash makes the following character literal. -/
def unescapeMeCardValue : Str → Str
  | [] => []
  | '\\' :: c :: rest => c :: unescapeMeCardValue rest
  | c :: rest => c :: unescapeMeCardValue rest

/-- Decides that a string contains no unescaped raw `;`, `:`, `,` or `\`:
scanning left to right, a backslash protects the character after it, and
any bare special character (including a trailing lone backslash) is a
violation. -/
def noUnescapedRaw : Str → Bool
  | [] => true
  | '\\' :: _ :: rest => noUnescapedRaw rest
  | c :: rest => decide (c ∉ [';', ':', ',', '\\']) && noUnescapedRaw rest

/-- Decides whether a line starts with the `N:` property marker. -/
def isNLine : Str → Bool
  | 'N' :: ':' :: _ => true
  | _ => false

/-- Color configuration used by the concrete scenarios. -/
def scenarioColors : ColorConfig := ⟨str "f", str "b"⟩

/-- The i-th of the distinct records inserted in the 51-insert scenario. -/
def scenarioRecord (i : Nat) : QRData := .text (str "t" ++ natToStr i)

/-- The persistent slot after sequentially saving the 51 distinct scenario
records into an empty store, with a stalled clock (all timestamps 0). -/
def scenarioStore : Store :=
  (List.range' 1 51).foldl (fun st i =>
    (saveToHistory (scenarioRecord i) scenarioColors [] 0 [] st).2) none

/-- A single text record whose serialization alone exceeds the 5 MiB
storage ceiling. -/
def hugeTextRecord : QRData := .text (List.replicate 6000000 'a')

/-- The persistent slot after saving the oversized record into an empty
store. -/
def c1CexStore : Store :=
  (saveToHistory hugeTextRecord scenarioColors [] 0 [] none).2

/-- VCard record whose last name contains a semicolon. -/
def c3CexVCard : VCardData :=
  { firstName := str "A", middleName := [], lastName := str "B;C",
    pfx := [], suffix := [], nickname := [], birthday := [], photo := [],
    phones := [], emails := [], organization := [], jobTitle := [],
    department := [], role := [], logo := [], workWebsite := [],
    addresses := [], socialMedia := ⟨[], [], [], [], []⟩, notes := [] }

/-- A plain VCard record with non-empty first and last name. -/
def c3WitnessVCard : VCardData :=
  { firstName := str "John", middleName := [], lastName := str "Doe",
    pfx := [], suffix := [], nickname := [], birthday := [], photo := [],
    phones := [], emails := [], organization := [], jobTitle := [],
    department := [], role := [], logo := [], workWebsite := [],
    addresses := [], socialMedia := ⟨[], [], [], [], []⟩, notes := [] }

/-- A small persisted store holding one text item, used by concrete
witnesses. -/
def witnessStore : Store :=
  some ⟨1, [⟨str "id1", 5, str "text", .text (str "hello"), scenarioColors,
             str "th"⟩]⟩

/-- A small import payload item with an id distinct from `witnessStore`'s
item. -/
def witnessImportItem : HistoryItem :=
  ⟨str "id2", 9, str "url", .url (str "https://e.example"), scenarioColors,
   str "th2"⟩

/-- The id-deduplicated union the spec describes for import merging: every
imported item, then every existing item whose id is absent from the
imported items. -/
def mergedSpec (importedItems existingItems : List HistoryItem) :
    List HistoryItem :=
  importedItems ++ existingItems.filter (fun e =>
    !importedItems.any (fun item => decide (item.id = e.id)))

/-! ## Basic string lemmas -/

@[simp] theorem byteLen_nil : byteLen [] = 0 := rfl

@[simp] theorem byteLen_cons (c : Char) (s : Str) :
    byteLen (c :: s) = c.utf8Size + byteLen s := by
  simp [byteLen]

@[simp] theorem byteLen_append (s t : Str) :
    byteLen (s ++ t) = byteLen s + byteLen t := by
  simp [byteLen]

theorem replaceChar_append (t : Char) (r s₁ s₂ : Str) :
    replaceChar t r (s₁ ++ s₂) = replaceChar t r s₁ ++ replaceChar t r s₂ := by
  induction s₁ with
  | nil => rfl
  | cons c s ih => simp [replaceChar, ih]

theorem escapeMeCardValue_cons (c : Char) (v : Str) :
    escapeMeCardValue (c :: v) = mecardEscChar c ++ escapeMeCardValue v := by
  by_cases h1 : c = '\\' <;> by_cases h2 : c = ':' <;> by_cases h3 : c = ';' <;>
    by_cases h4 : c = ',' <;> by_cases h5 : c = '"' <;>
    simp_all [escapeMeCardValue, mecardEscChar, replaceChar, replaceChar_append]

theorem escapeVCardValue_cons (c : Char) (v : Str) :
    escapeVCardValue (c :: v) = vcardEscChar c ++ escapeVCardValue v := by
  by_cases h1 : c = '\\' <;> by_cases h2 : c = ',' <;> by_cases h3 : c = ';' <;>
    by_cases h4 : c = '\n' <;>
    simp_all [escapeVCardValue, vcardEscChar, replaceChar, replaceChar_append]

theorem noUnescapedRaw_escapeMeCardValue (v : Str) :
    noUnescapedRaw (escapeMeCardValue v) = true := by
  induction v with
  | nil => rfl
  | cons c v ih =>
    rw [escapeMeCardValue_cons]
    by_cases h1 : c = '\\' <;> by_cases h2 : c = ':' <;> by_cases h3 : c = ';' <;>
      by_cases h4 : c = ',' <;> by_cases h5 : c = '"' <;>
      simp_all [mecardEscChar, noUnescapedRaw]

theorem unescapeMeCardValue_escapeMeCardValue (v : Str) :
    unescapeMeCardValue (escapeMeCardValue v) = v := by
  induction v with
  | nil => rfl
  | cons c v ih =>
    rw [escapeMeCardValue_cons]
    by_cases h1 : c = '\\' <;> by_cases h2 : c = ':' <;> by_cases h3 : c = ';' <;>
      by_cases h4 : c = ',' <;> by_cases h5 : c = '"' <;>
      simp_all [mecardEscChar, unescapeMeCardValue]

theorem count_semi_vcardEscChar (c : Char) :
    (vcardEscChar c).count ';' = if c = ';' then 1 else 0 := by
  by_cases h1 : c = '\\'
  · subst h1; decide
  by_cases h2 : c = ','
  · subst h2; decide
  by_cases h3 : c = ';'
  · subst h3; decide
  by_cases h4 : c = '\n'
  · subst h4; decide
  have h3' : ';' ≠ c := fun hh => h3 hh.symm
  simp [vcardEscChar, h1, h2, h3, h4, List.count_cons, h3']

theorem count_semi_escapeVCardValue (v : Str) :
    (escapeVCardValue v).count ';' = v.count ';' := by
  induction v with
  | nil => rfl
  | cons c v ih =>
    rw [escapeVCardValue_cons]
    rw [List.count_append, count_semi_vcardEscChar, ih, List.count_cons]
    by_cases h : c = ';' <;> simp [h] <;> omega

theorem lf_notMem_vcardEscChar (c : Char) : '\n' ∉ vcardEscChar c := by
  by_cases h1 : c = '\\'
  · subst h1; decide
  by_cases h2 : c = ','
  · subst h2; decide
  by_cases h3 : c = ';'
  · subst h3; decide
  by_cases h4 : c = '\n'
  · subst h4; decide
  simp only [vcardEscChar, h1, h2, h3, h4, if_false, List.mem_singleton]
  exact fun hh => h4 hh.symm

theorem lf_notMem_escapeVCardValue (v : Str) : '\n' ∉ escapeVCardValue v := by
  induction v with
  | nil => simp [escapeVCardValue, replaceChar]
  | cons c v ih =>
    rw [escapeVCardValue_cons]
    intro hmem
    rcases List.mem_append.mp hmem with h | h
    · exact lf_notMem_vcardEscChar c h
    · exact ih h

/-! ## Line splitting and joining lemmas -/

theorem splitOnCRLF_ne_nil (l : Str) : splitOnCRLF l ≠ [] := by
  rw [splitOnCRLF.eq_def]
  split
  · simp
  · simp
  · split <;> simp

theorem splitOnCRLF_of_not_lf (l : Str) (h : '\n' ∉ l) : splitOnCRLF l = [l] := by
  induction l with
  | nil => rfl
  | cons c rest ih =>
    have hr : '\n' ∉ rest := fun hm => h (List.mem_cons_of_mem _ hm)
    rw [splitOnCRLF.eq_def]
    split
    · rename_i heq; exact absurd heq (List.cons_ne_nil _ _)
    · rename_i rest' heq
      obtain ⟨hc, hrest⟩ := List.cons.injEq .. ▸ heq
      exact absurd (hrest ▸ List.mem_cons_self '\n' rest') hr
    · rename_i c' rest' hne heq
      obtain ⟨hc, hrest⟩ := List.cons.injEq .. ▸ heq
      subst hc; subst hrest
      rw [ih hr]

theorem splitOnCRLF_append_sep (l s : Str) (h : '\n' ∉ l) :
    splitOnCRLF (l ++ '\r' :: '\n' :: s) = l :: splitOnCRLF s := by
  induction l with
  | nil => rfl
  | cons c rest ih =>
    have hr : '\n' ∉ rest := fun hm => h (List.mem_cons_of_mem _ hm)
    rw [List.cons_append, splitOnCRLF.eq_def]
    split
    · rename_i heq; exact absurd heq (List.cons_ne_nil _ _)
    · rename_i rest' heq
      obtain ⟨hc, hrest⟩ := List.cons.injEq .. ▸ heq
      cases rest with
      | nil => simp at hrest
      | cons c' rest2 =>
        obtain ⟨hc', _⟩ := List.cons.injEq .. ▸ hrest
        exact absurd (hc' ▸ List.mem_cons_self _ _) hr
    · rename_i c' rest' hne heq
      obtain ⟨hc, hrest⟩ := List.cons.injEq .. ▸ heq
      subst hc; subst hrest
      rw [ih hr]

theorem joinCRLF_cons (l : Str) (ls : List Str) (h : ls ≠ []) :
    joinCRLF (l :: ls) = l ++ '\r' :: '\n' :: joinCRLF ls := by
  cases ls with
  | nil => contradiction
  | cons l2 ls2 => rfl

theorem splitOnCRLF_joinCRLF (ls : List Str) (hne : ls ≠ [])
    (h : ∀ l ∈ ls, '\n' ∉ l) : splitOnCRLF (joinCRLF ls) = ls := by
  induction ls with
  | nil => contradiction
  | cons l ls ih =>
    cases ls with
    | nil => exact splitOnCRLF_of_not_lf l (h l (List.mem_cons_self _ _))
    | cons l2 ls2 =>
      rw [joinCRLF_cons _ _ (List.cons_ne_nil _ _),
        splitOnCRLF_append_sep _ _ (h l (List.mem_cons_self _ _)),
        ih (List.cons_ne_nil _ _) (fun x hx => h x (List.mem_cons_of_mem _ hx))]

theorem joinCRLF_ends_with (x : Str) (ls : List Str) :
    ∃ init, joinCRLF (ls ++ [x]) = init ++ x := by
  induction ls with
  | nil => exact ⟨[], rfl⟩
  | cons l ls ih =>
    obtain ⟨init, hi⟩ := ih
    refine ⟨l ++ '\r' :: '\n' :: init, ?_⟩
    rw [List.cons_append, joinCRLF_cons _ _ (by simp), hi]
    simp

theorem splitOnChar_ne_nil (sep : Char) (s : Str) : splitOnChar sep s ≠ [] := by
  rw [splitOnChar.eq_def]
  split
  · simp
  · split
    · simp
    · split <;> simp

theorem splitOnChar_cons (sep c : Char) (rest : Str) :
    splitOnChar sep (c :: rest) =
      if c = sep then [] :: splitOnChar sep rest
      else
        match splitOnChar sep rest with
        | [] => [[c]]
        | l :: ls => (c :: l) :: ls := rfl

theorem length_splitOnChar (sep : Char) (s : Str) :
    (splitOnChar sep s).length = s.count sep + 1 := by
  induction s with
  | nil => simp [splitOnChar]
  | cons c rest ih =>
    by_cases hc : c = sep
    · subst hc
      simp [splitOnChar, List.count_cons, ih]
    · cases hh : splitOnChar sep rest with
      | nil => exact absurd hh (splitOnChar_ne_nil sep rest)
      | cons l ls =>
        have hcount : (c :: rest).count sep = rest.count sep := by
          simp [List.count_cons, hc, fun hh2 : sep = c => hc hh2.symm]
        rw [hcount, ← ih, hh, splitOnChar_cons, if_neg hc, hh]
        simp

/-! ## Claim C4 -/

/-- C4 counterexample: on an unknown discriminant the payload formatter
does not return at all: it throws (modelled as `Except.error`; the
source's return type is a plain string, so no tagged-error return value
exists).  Concretely, the record tagged "custom" makes `formatQRData`
throw `Unsupported QR type: custom`. -/
theorem c4_counterexample :
    formatQRData (QRData.unknown (str "custom")) =
      Except.error (str "Unsupported QR type: custom") := rfl

/-- C4 (amended): when a record's type discriminant is not one of the
eight known variants, `formatQRData` fails by throwing an
`Unsupported QR type` error (not by returning a tagged error value), and
the exception propagates to the caller: `generateQRCodeOptions` calls the
formatter outside any try/catch and surfaces the same error. -/
theorem c4_unsupported_type_throws (tag : Str) (colors : ColorConfig) (size : Nat) :
    formatQRData (.unknown tag) = .error (str "Unsupported QR type: " ++ tag) ∧
    generateQRCodeOptions (.unknown tag) colors size =
      .error (str "Unsupported QR type: " ++ tag) :=
  ⟨rfl, rfl⟩

/-! ## Claim C10 -/

/-- C10: for a record whose discriminant is not one of the eight known
variants, `validateQRData` returns `{ valid: true }` (the switch has no
default branch), yet `formatQRData` throws on the same input, so the
validation gate does not make the formatter's unsupported-type branch
unreachable. -/
theorem c10_validate_accepts_unknown (urlOk : Str → Bool) (tag : Str) :
    validateQRData urlOk (.unknown tag) = ⟨true, none⟩ ∧
    formatQRData (.unknown tag) = .error (str "Unsupported QR type: " ++ tag) :=
  ⟨rfl, rfl⟩

/-! ## Claim C5 -/

/-- C5: every MeCard encoding is of the shape `MECARD:` ++ fields ++ `;;`;
escaped field values contain no unescaped raw `;`, `:`, `,` or `\`; and
the escaping round-trips under the spec's unescape reading
(`unescape(encode(v)) = v`, for every value, hence in particular for
values containing each special character individually). -/
theorem c5_mecard_shape_and_escaping (d : MeCardData) :
    (∃ mid, encodeMeCard d = str "MECARD:" ++ mid ++ str ";;") ∧
    (∀ v : Str, noUnescapedRaw (escapeMeCardValue v) = true) ∧
    (∀ v : Str, unescapeMeCardValue (escapeMeCardValue v) = v) :=
  ⟨⟨joinChar ';' (mecardFields d), rfl⟩,
   noUnescapedRaw_escapeMeCardValue,
   unescapeMeCardValue_escapeMeCardValue⟩

/-! ## Claim C3: vCard structure lemmas -/

theorem forall_mem_ite_singleton {p : Str → Prop} {b : Prop} [Decidable b]
    {v : Str} (hv : p v) : ∀ x ∈ (if b then [v] else ([] : List Str)), p x := by
  split
  · intro x hx
    rw [List.mem_singleton.mp hx]
    exact hv
  · intro x hx
    simp at hx

theorem mem_stripDataUrlMark {c : Char} {s : Str}
    (h : c ∈ stripDataUrlMark s) : c ∈ s := by
  unfold stripDataUrlMark at h
  dsimp only at h
  split at h
  · split at h
    · exact List.mem_of_mem_drop (List.mem_of_mem_drop (List.mem_of_mem_drop h))
    · exact h
  · exact h

theorem lf_notMem_mapPhoneType (t : PhoneType) : '\n' ∉ mapPhoneType t := by
  cases t <;> decide

theorem lf_notMem_mapEmailType (t : EmailType) : '\n' ∉ mapEmailType t := by
  cases t <;> decide

theorem lf_notMem_mapAddressType (t : AddressType) : '\n' ∉ mapAddressType t := by
  cases t <;> decide

theorem lf_notMem_vcardOptLines (d : VCardData) (hbday : '\n' ∉ d.birthday)
    (hphoto : '\n' ∉ d.photo) (hlogo : '\n' ∉ d.logo) :
    ∀ x ∈ vcardOptLines d, '\n' ∉ x := by
  have hesc : ∀ (lit : Str) (y : Str), '\n' ∉ lit →
      '\n' ∉ lit ++ escapeVCardValue y := by
    intro lit y hlit hmem
    rcases List.mem_append.mp hmem with h | h
    · exact hlit h
    · exact lf_notMem_escapeVCardValue _ h
  rw [vcardOptLines]
  simp only [List.forall_mem_append, and_assoc]
  refine ⟨?_, ?_, ?_, ?_, ?_, ?_, ?_, ?_, ?_, ?_, ?_, ?_, ?_, ?_, ?_, ?_,
    ?_, ?_⟩
  · exact forall_mem_ite_singleton (hesc _ _ (by decide))
  · exact forall_mem_ite_singleton (fun hmem => by
      rcases List.mem_append.mp hmem with h | h
      · revert h; decide
      · exact hbday (List.mem_filter.mp h).1)
  · exact forall_mem_ite_singleton (fun hmem => by
      rcases List.mem_append.mp hmem with h | h
      · revert h; decide
      · exact hphoto (mem_stripDataUrlMark h))
  · intro x hx
    obtain ⟨a, _, rfl⟩ := List.mem_map.mp hx
    intro hmem
    rcases List.mem_append.mp hmem with h | h
    · rcases List.mem_append.mp h with h | h
      · revert h; decide
      · exact lf_notMem_mapPhoneType _ h
    · rcases List.mem_cons.mp h with h | h
      · exact absurd h (by decide)
      · exact lf_notMem_escapeVCardValue _ h
  · intro x hx
    obtain ⟨a, _, rfl⟩ := List.mem_map.mp hx
    intro hmem
    rcases List.mem_append.mp hmem with h | h
    · rcases List.mem_append.mp h with h | h
      · revert h; decide
      · exact lf_notMem_mapEmailType _ h
    · rcases List.mem_cons.mp h with h | h
      · exact absurd h (by decide)
      · exact lf_notMem_escapeVCardValue _ h
  · exact forall_mem_ite_singleton (hesc _ _ (by decide))
  · exact forall_mem_ite_singleton (hesc _ _ (by decide))
  · exact forall_mem_ite_singleton (hesc _ _ (by decide))
  · exact forall_mem_ite_singleton (hesc _ _ (by decide))
  · exact forall_mem_ite_singleton (fun hmem => by
      rcases List.mem_append.mp hmem with h | h
      · revert h; decide
      · exact hlogo (mem_stripDataUrlMark h))
  · exact forall_mem_ite_singleton (hesc _ _ (by decide))
  · intro x hx
    obtain ⟨a, _, rfl⟩ := List.mem_map.mp hx
    intro hmem
    rcases List.mem_append.mp hmem with h | h
    · rcases List.mem_append.mp h with h | h
      · revert h; decide
      · exact lf_notMem_mapAddressType _ h
    · rcases List.mem_cons.mp h with h | h
      · exact absurd h (by decide)
      · exact lf_notMem_escapeVCardValue _ h
  · exact forall_mem_ite_singleton (hesc _ _ (by decide))
  · exact forall_mem_ite_singleton (hesc _ _ (by decide))
  · exact forall_mem_ite_singleton (hesc _ _ (by decide))
  · exact forall_mem_ite_singleton (hesc _ _ (by decide))
  · exact forall_mem_ite_singleton (hesc _ _ (by decide))
  · exact forall_mem_ite_singleton (hesc _ _ (by decide))

theorem notN_vcardOptLines (d : VCardData) :
    ∀ x ∈ vcardOptLines d, isNLine x = false := by
  rw [vcardOptLines]
  simp only [List.forall_mem_append, and_assoc]
  refine ⟨?_, ?_, ?_, ?_, ?_, ?_, ?_, ?_, ?_, ?_, ?_, ?_, ?_, ?_, ?_, ?_,
    ?_, ?_⟩
  · exact forall_mem_ite_singleton (p := fun x => isNLine x = false) rfl
  · exact forall_mem_ite_singleton (p := fun x => isNLine x = false) rfl
  · exact forall_mem_ite_singleton (p := fun x => isNLine x = false) rfl
  · intro x hx
    obtain ⟨a, _, rfl⟩ := List.mem_map.mp hx
    rfl
  · intro x hx
    obtain ⟨a, _, rfl⟩ := List.mem_map.mp hx
    rfl
  · exact forall_mem_ite_singleton (p := fun x => isNLine x = false) rfl
  · exact forall_mem_ite_singleton (p := fun x => isNLine x = false) rfl
  · exact forall_mem_ite_singleton (p := fun x => isNLine x = false) rfl
  · exact forall_mem_ite_singleton (p := fun x => isNLine x = false) rfl
  · exact forall_mem_ite_singleton (p := fun x => isNLine x = false) rfl
  · exact forall_mem_ite_singleton (p := fun x => isNLine x = false) rfl
  · intro x hx
    obtain ⟨a, _, rfl⟩ := List.mem_map.mp hx
    rfl
  · exact forall_mem_ite_singleton (p := fun x => isNLine x = false) rfl
  · exact forall_mem_ite_singleton (p := fun x => isNLine x = false) rfl
  · exact forall_mem_ite_singleton (p := fun x => isNLine x = false) rfl
  · exact forall_mem_ite_singleton (p := fun x => isNLine x = false) rfl
  · exact forall_mem_ite_singleton (p := fun x => isNLine x = false) rfl
  · exact forall_mem_ite_singleton (p := fun x => isNLine x = false) rfl

theorem lf_notMem_vcardLines (d : VCardData) (hbday : '\n' ∉ d.birthday)
    (hphoto : '\n' ∉ d.photo) (hlogo : '\n' ∉ d.logo) :
    ∀ x ∈ vcardLines d, '\n' ∉ x := by
  rw [vcardLines]
  simp only [List.forall_mem_append, and_assoc]
  refine ⟨?_, lf_notMem_vcardOptLines d hbday hphoto hlogo, ?_⟩
  · intro x hx
    rcases List.mem_cons.mp hx with h | hx
    · subst h; decide
    rcases List.mem_cons.mp hx with h | hx
    · subst h; decide
    rcases List.mem_cons.mp hx with h | hx
    · subst h
      intro hmem
      rcases List.mem_append.mp hmem with h | h
      · revert h; decide
      · exact lf_notMem_escapeVCardValue _ h
    rcases List.mem_cons.mp hx with h | hx
    · subst h
      intro hmem
      rcases List.mem_append.mp hmem with h | h
      · revert h; decide
      · exact lf_notMem_escapeVCardValue _ h
    · simp at hx
  · intro x hx
    rw [List.mem_singleton.mp hx]
    decide

theorem splitOnCRLF_encodeVCard (d : VCardData) (hbday : '\n' ∉ d.birthday)
    (hphoto : '\n' ∉ d.photo) (hlogo : '\n' ∉ d.logo) :
    splitOnCRLF (encodeVCard d) = vcardLines d :=
  splitOnCRLF_joinCRLF _ (by simp [vcardLines])
    (lf_notMem_vcardLines d hbday hphoto hlogo)

theorem count_semi_structuredName (d : VCardData)
    (hsemi : ∀ part ∈ [d.pfx, d.firstName, d.middleName, d.lastName, d.suffix],
      ';' ∉ part) :
    (vcardStructuredName d).count ';' = 4 := by
  have hln : d.lastName.count ';' = 0 :=
    List.count_eq_zero.mpr (hsemi _ (by simp))
  have hfn : d.firstName.count ';' = 0 :=
    List.count_eq_zero.mpr (hsemi _ (by simp))
  have hmn : d.middleName.count ';' = 0 :=
    List.count_eq_zero.mpr (hsemi _ (by simp))
  have hpx : d.pfx.count ';' = 0 :=
    List.count_eq_zero.mpr (hsemi _ (by simp))
  have hsx : d.suffix.count ';' = 0 :=
    List.count_eq_zero.mpr (hsemi _ (by simp))
  show (d.lastName ++ ';' :: (d.firstName ++ ';' :: (d.middleName ++ ';' ::
    (d.pfx ++ ';' :: d.suffix)))).count ';' = 4
  simp [List.count_append, List.count_cons, hln, hfn, hmn, hpx, hsx]

theorem nline_field_count (d : VCardData)
    (hsemi : ∀ part ∈ [d.pfx, d.firstName, d.middleName, d.lastName, d.suffix],
      ';' ∉ part) :
    (splitOnChar ';'
      (str "N:" ++ escapeVCardValue (vcardStructuredName d))).length = 5 := by
  rw [length_splitOnChar, List.count_append, count_semi_escapeVCardValue,
    count_semi_structuredName d hsemi]
  decide

/-- C3 (amended): for every VCard record with non-empty first and last
name whose five name parts contain no raw `;` and whose birthday, photo
and logo contain no LF, the encoding starts with
`BEGIN:VCARD\r\nVERSION:3.0\r\n`, ends with `END:VCARD`, contains exactly
one `N:` line, and that line splits at `;` into exactly 5 fields.  (The
escaping of the structural semicolons leaves the raw `;` characters in
place, so the naive field count is 5 only when the name parts themselves
are semicolon-free; see the counterexample.) -/
theorem c3_vcard_structure (d : VCardData) (hf : d.firstName ≠ [])
    (hl : d.lastName ≠ [])
    (hsemi : ∀ part ∈ [d.pfx, d.firstName, d.middleName, d.lastName, d.suffix],
      ';' ∉ part)
    (hbday : '\n' ∉ d.birthday) (hphoto : '\n' ∉ d.photo)
    (hlogo : '\n' ∉ d.logo) :
    (∃ rest, encodeVCard d = str "BEGIN:VCARD\r\nVERSION:3.0\r\n" ++ rest) ∧
    (∃ init, encodeVCard d = init ++ str "END:VCARD") ∧
    (splitOnCRLF (encodeVCard d)).countP isNLine = 1 ∧
    (∀ line ∈ splitOnCRLF (encodeVCard d), isNLine line = true →
      (splitOnChar ';' line).length = 5) := by
  refine ⟨?_, ?_, ?_, ?_⟩
  · refine ⟨joinCRLF ((str "FN:" ++ escapeVCardValue (vcardFullName d)) ::
      (str "N:" ++ escapeVCardValue (vcardStructuredName d)) ::
      (vcardOptLines d ++ [str "END:VCARD"])), ?_⟩
    rw [encodeVCard, vcardLines]
    rw [show (([str "BEGIN:VCARD", str "VERSION:3.0",
      str "FN:" ++ escapeVCardValue (vcardFullName d),
      str "N:" ++ escapeVCardValue (vcardStructuredName d)] ++
      vcardOptLines d) ++ [str "END:VCARD"]) =
      str "BEGIN:VCARD" :: str "VERSION:3.0" ::
      ((str "FN:" ++ escapeVCardValue (vcardFullName d)) ::
       (str "N:" ++ escapeVCardValue (vcardStructuredName d)) ::
       (vcardOptLines d ++ [str "END:VCARD"])) from by simp]
    rw [joinCRLF_cons _ _ (by simp), joinCRLF_cons _ _ (by simp)]
    rw [show str "BEGIN:VCARD\r\nVERSION:3.0\r\n" =
      str "BEGIN:VCARD" ++ '\r' :: '\n' :: (str "VERSION:3.0" ++ ['\r', '\n'])
      from by decide]
    simp
  · obtain ⟨init, hi⟩ := joinCRLF_ends_with (str "END:VCARD")
      ([str "BEGIN:VCARD", str "VERSION:3.0",
        str "FN:" ++ escapeVCardValue (vcardFullName d),
        str "N:" ++ escapeVCardValue (vcardStructuredName d)] ++ vcardOptLines d)
    exact ⟨init, by rw [encodeVCard, vcardLines, hi]⟩
  · rw [splitOnCRLF_encodeVCard d hbday hphoto hlogo, vcardLines]
    rw [List.countP_append, List.countP_append]
    have h0 : (vcardOptLines d).countP isNLine = 0 :=
      List.countP_eq_zero.mpr (by
        intro x hx
        simp [notN_vcardOptLines d x hx])
    rw [h0]
    rfl
  · rw [splitOnCRLF_encodeVCard d hbday hphoto hlogo, vcardLines]
    intro line hline hN
    rcases List.mem_append.mp hline with hline | hline
    rotate_left
    · rw [List.mem_singleton.mp hline] at hN
      exact absurd hN (by decide)
    rcases List.mem_append.mp hline with hline | hline
    rotate_left
    · rw [notN_vcardOptLines d line hline] at hN
      cases hN
    rcases List.mem_cons.mp hline with h | hline
    · rw [h] at hN; exact absurd hN (by decide)
    rcases List.mem_cons.mp hline with h | hline
    · rw [h] at hN; exact absurd hN (by decide)
    rcases List.mem_cons.mp hline with h | hline
    · rw [h] at hN
      exact absurd hN (by rw [show isNLine (str "FN:" ++
        escapeVCardValue (vcardFullName d)) = false from rfl]; simp)
    rcases List.mem_cons.mp hline with h | hline
    · rw [h]
      exact nline_field_count d hsemi
    · simp at hline

/-- C3 counterexample: a VCard record with non-empty first and last name
(`firstName = "A"`, `lastName = "B;C"`) whose encoding contains exactly
one `N:` line, but that line splits at `;` into 6 fields, not 5 — the
claim\'s universally quantified field count fails. -/
theorem c3_counterexample :
    c3CexVCard.firstName ≠ [] ∧ c3CexVCard.lastName ≠ [] ∧
    ((splitOnCRLF (encodeVCard c3CexVCard)).filter isNLine).map
      (fun l => (splitOnChar ';' l).length) = [6] := by
  decide

/-- C3 witness: the amended theorem applied to a concrete plain record. -/
theorem c3_witness :
    (∃ rest, encodeVCard c3WitnessVCard =
      str "BEGIN:VCARD\r\nVERSION:3.0\r\n" ++ rest) ∧
    (∃ init, encodeVCard c3WitnessVCard = init ++ str "END:VCARD") ∧
    (splitOnCRLF (encodeVCard c3WitnessVCard)).countP isNLine = 1 ∧
    (∀ line ∈ splitOnCRLF (encodeVCard c3WitnessVCard), isNLine line = true →
      (splitOnChar ';' line).length = 5) :=
  c3_vcard_structure c3WitnessVCard (by decide) (by decide) (by decide)
    (by decide) (by decide) (by decide)

/-! ## History store lemmas -/

theorem loadSchema_version (store : Store) :
    (loadSchema store).version = STORAGE_VERSION := by
  cases store with
  | none => rfl
  | some schema =>
    rw [loadSchema]
    split
    · rfl
    · rename_i h
      exact not_ne_iff.mp h

theorem loadSchema_saveSchema (s : StorageSchema)
    (h : s.version = STORAGE_VERSION) : loadSchema (saveSchema s) = s := by
  rw [saveSchema, loadSchema, if_neg]
  simp [h]

theorem enforceAux_version (fuel : Nat) :
    ∀ s : StorageSchema, (enforceAux fuel s).version = s.version := by
  induction fuel with
  | zero => intro s; rfl
  | succ n ih =>
    intro s
    rw [enforceAux]
    split
    · exact ih _
    · rfl

theorem enforceAux_length_le (fuel : Nat) :
    ∀ s : StorageSchema, (enforceAux fuel s).items.length ≤ s.items.length := by
  induction fuel with
  | zero => intro s; exact le_refl _
  | succ n ih =>
    intro s
    rw [enforceAux]
    split
    · refine le_trans (ih _) ?_
      simp [List.length_dropLast]
    · exact le_refl _

theorem enforceAux_post (fuel : Nat) :
    ∀ s : StorageSchema, s.items.length ≤ fuel →
      byteLen (jsonOfSchema (enforceAux fuel s)) ≤ MAX_STORAGE_SIZE ∨
      (enforceAux fuel s).items.length ≤ 1 := by
  induction fuel with
  | zero =>
    intro s h
    right
    simpa [enforceAux] using Nat.le_trans h (by omega)
  | succ n ih =>
    intro s h
    rw [enforceAux]
    split
    · rename_i hc
      refine ih _ ?_
      have := List.length_dropLast s.items
      simp only [this]
      omega
    · rename_i hc
      rw [not_and_or] at hc
      rcases hc with hc | hc
      · exact Or.inl (Nat.le_of_not_lt hc)
      · exact Or.inr (by omega)

theorem enforceStorageLimit_version (s : StorageSchema) :
    (enforceStorageLimit s).version = s.version :=
  enforceAux_version _ _

theorem enforceStorageLimit_length_le (s : StorageSchema) :
    (enforceStorageLimit s).items.length ≤ s.items.length :=
  enforceAux_length_le _ _

theorem enforceStorageLimit_post (s : StorageSchema) :
    byteLen (jsonOfSchema (enforceStorageLimit s)) ≤ MAX_STORAGE_SIZE ∨
    (enforceStorageLimit s).items.length ≤ 1 :=
  enforceAux_post _ _ (le_refl _)

theorem enforceStorageLimit_of_small (s : StorageSchema)
    (h : byteLen (jsonOfSchema s) ≤ MAX_STORAGE_SIZE) :
    enforceStorageLimit s = s := by
  rw [enforceStorageLimit]
  cases s.items.length with
  | zero => rfl
  | succ n =>
    rw [enforceAux, if_neg]
    rintro ⟨h1, h2⟩
    omega

/-! ## Claim C6 -/

/-- C6: if some item already in the store has the same type discriminant
and the same `JSON.stringify` serialization of its record payload as the
new record, `saveToHistory` returns null and leaves the persisted storage
(and hence the history length) unchanged. -/
theorem c6_duplicate_save_rejected (data : QRData) (colors : ColorConfig)
    (thumbnail : Str) (now : Nat) (newId : Str) (store : Store)
    (h : ∃ item ∈ (loadSchema store).items,
      item.type = typeTag data ∧ jsonOfQRData item.data = jsonOfQRData data) :
    saveToHistory data colors thumbnail now newId store = (none, store) := by
  obtain ⟨it, hmem, h1, h2⟩ := h
  have hdup : (loadSchema store).items.any (fun item =>
      decide (item.type = typeTag data ∧
        jsonOfQRData item.data = jsonOfQRData data)) = true :=
    List.any_eq_true.mpr ⟨it, hmem, by simp [h1, h2]⟩
  simp only [saveToHistory, hdup, if_true]

/-- C6 witness: saving a record equal to the one already stored returns
null and leaves the store untouched. -/
theorem c6_witness :
    saveToHistory (.text (str "hello")) scenarioColors (str "th") 9
      (str "id9") witnessStore = (none, witnessStore) :=
  c6_duplicate_save_rejected _ _ _ _ _ _
    ⟨⟨str "id1", 5, str "text", .text (str "hello"), scenarioColors, str "th"⟩,
      by decide, by decide, by decide⟩

/-! ## Claim C9 -/

/-- C9: a malformed import payload — unparseable JSON, a missing (or
falsy) version field, or an items field that is not a list — is rejected
wholesale: the import returns failure and the persisted history is left
untouched. -/
theorem c9_malformed_import_rejected (store : Store) (p : ImportPayload) :
    importHistoryFromJSON none store = (false, store) ∧
    (p.version = none → importHistoryFromJSON (some p) store = (false, store)) ∧
    (p.version = some 0 → importHistoryFromJSON (some p) store = (false, store)) ∧
    (p.items = none → importHistoryFromJSON (some p) store = (false, store)) := by
  refine ⟨rfl, ?_, ?_, ?_⟩
  · intro h
    rcases p with ⟨ver, items⟩
    simp only at h
    subst h
    rfl
  · intro h
    rcases p with ⟨ver, items⟩
    simp only at h
    subst h
    simp [importHistoryFromJSON]
  · intro h
    rcases p with ⟨ver, items⟩
    simp only at h
    subst h
    rcases ver with _ | v
    · rfl
    · by_cases hv : v = 0
      · subst hv
        simp [importHistoryFromJSON]
      · simp [importHistoryFromJSON, hv]

/-- C9 witness: the theorem applied to two concrete malformed payloads
over the concrete witness store. -/
theorem c9_witness :
    importHistoryFromJSON (some ⟨none, some []⟩) witnessStore =
      (false, witnessStore) ∧
    importHistoryFromJSON (some ⟨some 1, none⟩) witnessStore =
      (false, witnessStore) :=
  ⟨(c9_malformed_import_rejected witnessStore ⟨none, some []⟩).2.1 rfl,
   (c9_malformed_import_rejected witnessStore ⟨some 1, none⟩).2.2.2 rfl⟩

/-! ## Claim C2 -/

/-- C2 (spec-modelled): `updateHistoryItem` returns null when no stored
item has the given id; otherwise it returns the updated item — id
preserved, timestamp replaced by the current time, data and colors
replaced by the new values, thumbnail regenerated — and persists it at
the located item's position: the list keeps its length, the k-th entry
becomes the updated item, and every other position is unchanged. -/
theorem c2_update_in_place (id : Str) (data : QRData) (colors : ColorConfig)
    (thumbnail : Str) (now : Nat) (store : Store) :
    ((loadSchema store).items.findIdx? (fun item => decide (item.id = id)) = none →
      updateHistoryItem id data colors thumbnail now store = (none, store)) ∧
    (∀ k, (loadSchema store).items.findIdx?
        (fun item => decide (item.id = id)) = some k →
      (updateHistoryItem id data colors thumbnail now store).1 =
        some ⟨id, now, typeTag data, data, colors, thumbnail⟩ ∧
      (loadSchema (updateHistoryItem id data colors thumbnail now store).2).items =
        (loadSchema store).items.set k
          ⟨id, now, typeTag data, data, colors, thumbnail⟩ ∧
      (loadSchema (updateHistoryItem id data colors thumbnail now store).2).items.length =
        (loadSchema store).items.length ∧
      (∀ j, j ≠ k →
        (loadSchema (updateHistoryItem id data colors thumbnail now store).2).items[j]? =
        (loadSchema store).items[j]?)) := by
  constructor
  · intro h
    simp [updateHistoryItem, h]
  · intro k h
    have hload : loadSchema (updateHistoryItem id data colors thumbnail now store).2 =
        ⟨(loadSchema store).version, (loadSchema store).items.set k
          ⟨id, now, typeTag data, data, colors, thumbnail⟩⟩ := by
      simp only [updateHistoryItem, h]
      exact loadSchema_saveSchema _ (loadSchema_version store)
    refine ⟨by simp [updateHistoryItem, h], by rw [hload], ?_, ?_⟩
    · rw [hload]
      exact List.length_set ..
    · intro j hj
      rw [hload]
      exact List.getElem?_set_ne (fun hh => hj hh.symm)

/-- C2 witness: updating the stored item of the concrete witness store. -/
theorem c2_witness :
    (updateHistoryItem (str "id1") (.text (str "bye")) ⟨str "x", str "y"⟩
      (str "th3") 42 witnessStore).1 =
      some ⟨str "id1", 42, str "text", .text (str "bye"), ⟨str "x", str "y"⟩,
        str "th3"⟩ ∧
    (loadSchema (updateHistoryItem (str "id1") (.text (str "bye"))
        ⟨str "x", str "y"⟩ (str "th3") 42 witnessStore).2).items =
      (loadSchema witnessStore).items.set 0
        ⟨str "id1", 42, str "text", .text (str "bye"), ⟨str "x", str "y"⟩,
          str "th3"⟩ ∧
    (loadSchema (updateHistoryItem (str "id1") (.text (str "bye"))
        ⟨str "x", str "y"⟩ (str "th3") 42 witnessStore).2).items.length =
      (loadSchema witnessStore).items.length ∧
    (∀ j, j ≠ 0 →
      (loadSchema (updateHistoryItem (str "id1") (.text (str "bye"))
        ⟨str "x", str "y"⟩ (str "th3") 42 witnessStore).2).items[j]? =
      (loadSchema witnessStore).items[j]?) :=
  (c2_update_in_place (str "id1") (.text (str "bye")) ⟨str "x", str "y"⟩
    (str "th3") 42 witnessStore).2 0 (by decide)

/-! ## Claim C1 -/

theorem jsonEscapeChar_a : jsonEscapeChar 'a' = ['a'] := rfl

theorem jsonEscape_replicate_a (n : Nat) :
    concatMapStr jsonEscapeChar (List.replicate n 'a') = List.replicate n 'a' := by
  induction n with
  | zero => rfl
  | succ m ih =>
    rw [List.replicate_succ]
    show jsonEscapeChar 'a' ++ concatMapStr jsonEscapeChar (List.replicate m 'a') =
      'a' :: List.replicate m 'a'
    rw [jsonEscapeChar_a, ih]
    rfl

theorem byteLen_replicate_a (n : Nat) : byteLen (List.replicate n 'a') = n := by
  rw [byteLen, List.map_replicate, List.sum_replicate]
  simp [Char.utf8Size]

theorem saveToHistory_empty_store (data : QRData) (colors : ColorConfig)
    (thumbnail : Str) (now : Nat) (newId : Str) :
    saveToHistory data colors thumbnail now newId none =
      (some ⟨newId, now, typeTag data, data, colors, thumbnail⟩,
       some ⟨STORAGE_VERSION, [⟨newId, now, typeTag data, data, colors,
         thumbnail⟩]⟩) := by
  rw [saveToHistory]
  simp only [loadSchema, createEmptySchema, List.any_nil, Bool.false_eq_true,
    if_false, MAX_ITEMS, List.length_cons, List.length_nil]
  rw [if_neg (by omega)]
  rw [show enforceStorageLimit ⟨STORAGE_VERSION, [⟨newId, now, typeTag data,
      data, colors, thumbnail⟩]⟩ =
    ⟨STORAGE_VERSION, [⟨newId, now, typeTag data, data, colors, thumbnail⟩]⟩
    from by
      rw [enforceStorageLimit]
      show enforceAux 1 _ = _
      rw [enforceAux, if_neg (by rintro ⟨h1, h2⟩; simp at h2)]]
  rfl

theorem c1CexSchema_size (n : Nat) :
    n ≤ byteLen (jsonOfSchema ⟨STORAGE_VERSION, [⟨[], 0, str "text",
      QRData.text (List.replicate n 'a'), scenarioColors, []⟩]⟩) := by
  simp only [jsonOfSchema, jsonOfItem, jsonOfQRData, jsonOfColors, jsonObj,
    jsonArr, jmem, jsonQuote, joinChar, typeTag,
    List.map_cons, List.map_nil, byteLen_append, byteLen_cons,
    List.append_assoc, List.cons_append, List.nil_append]
  rw [jsonEscape_replicate_a, byteLen_replicate_a]
  omega

/-- C1 counterexample: saving a single text record of six million
characters into an empty store succeeds (the returned item is non-null),
yet the persisted schema's serialized byte size exceeds
`MAX_STORAGE_SIZE` — the eviction loop stops once only one item remains,
so the claimed size invariant fails after this insert. -/
theorem c1_counterexample :
    (saveToHistory hugeTextRecord scenarioColors [] 0 [] none).1 =
      some ⟨[], 0, str "text", hugeTextRecord, scenarioColors, []⟩ ∧
    MAX_STORAGE_SIZE < getStorageSize c1CexStore := by
  have hsave := saveToHistory_empty_store hugeTextRecord scenarioColors [] 0 []
  constructor
  · exact congrArg Prod.fst hsave
  · rw [getStorageSize, c1CexStore, hsave]
    rw [show loadSchema (some ⟨STORAGE_VERSION, [⟨[], 0, typeTag hugeTextRecord,
        hugeTextRecord, scenarioColors, []⟩]⟩) =
      ⟨STORAGE_VERSION, [⟨[], 0, typeTag hugeTextRecord, hugeTextRecord,
        scenarioColors, []⟩]⟩ from by rw [loadSchema, if_neg]; simp]
    exact lt_of_lt_of_le (by decide) (c1CexSchema_size 6000000)

/-- C1 (amended): whenever `saveToHistory` actually inserts (returns a
non-null item), the persisted schema's serialized byte size is at most
`MAX_STORAGE_SIZE` **or** at most one item remains: the eviction loop
removes oldest items only while more than one item is stored, so a single
oversized item is persisted above the ceiling. -/
theorem c1_size_bounded (data : QRData) (colors : ColorConfig)
    (thumbnail : Str) (now : Nat) (newId : Str) (store : Store)
    (it : HistoryItem)
    (h : (saveToHistory data colors thumbnail now newId store).1 = some it) :
    getStorageSize (saveToHistory data colors thumbnail now newId store).2 ≤
      MAX_STORAGE_SIZE ∨
    (loadSchema (saveToHistory data colors thumbnail now newId store).2).items.length ≤ 1 := by
  by_cases hdup : (loadSchema store).items.any (fun item =>
      decide (item.type = typeTag data ∧
        jsonOfQRData item.data = jsonOfQRData data)) = true
  · rw [show saveToHistory data colors thumbnail now newId store = (none, store)
      from by simp only [saveToHistory, hdup, if_true]] at h
    cases h
  · have hd : (loadSchema store).items.any (fun item =>
        decide (item.type = typeTag data ∧
          jsonOfQRData item.data = jsonOfQRData data)) = false :=
      Bool.eq_false_iff.mpr hdup
    rw [show (saveToHistory data colors thumbnail now newId store).2 =
      saveSchema (enforceStorageLimit ⟨(loadSchema store).version,
        if (⟨newId, now, typeTag data, data, colors, thumbnail⟩ ::
            (loadSchema store).items).length > MAX_ITEMS then
          (⟨newId, now, typeTag data, data, colors, thumbnail⟩ ::
            (loadSchema store).items).take MAX_ITEMS
        else ⟨newId, now, typeTag data, data, colors, thumbnail⟩ ::
          (loadSchema store).items⟩)
      from by simp only [saveToHistory, hd, Bool.false_eq_true, if_false]]
    rw [getStorageSize, loadSchema_saveSchema _ (by
      rw [enforceStorageLimit_version]
      exact loadSchema_version store)]
    exact enforceStorageLimit_post _

/-- C1 witness: the amended bound applied to a concrete small insert. -/
theorem c1_witness :
    getStorageSize (saveToHistory (.text (str "x")) scenarioColors [] 0 []
      none).2 ≤ MAX_STORAGE_SIZE ∨
    (loadSchema (saveToHistory (.text (str "x")) scenarioColors [] 0 []
      none).2).items.length ≤ 1 :=
  c1_size_bounded (.text (str "x")) scenarioColors [] 0 [] none
    ⟨[], 0, str "text", .text (str "x"), scenarioColors, []⟩ (by decide)

/-! ## Claim C7 -/

theorem joinChar_cons (sep : Char) (l : Str) (ls : List Str) (h : ls ≠ []) :
    joinChar sep (l :: ls) = l ++ sep :: joinChar sep ls := by
  cases ls with
  | nil => contradiction
  | cons l2 ls2 => rfl

theorem byteLen_joinChar_comma_le (l : List Str) :
    byteLen (joinChar ',' l) ≤ (l.map byteLen).sum + l.length := by
  induction l with
  | nil => simp [joinChar]
  | cons x ls ih =>
    cases ls with
    | nil => simp [joinChar]
    | cons y ls2 =>
      rw [joinChar_cons ',' x (y :: ls2) (by simp)]
      rw [byteLen_append, byteLen_cons]
      have h1 : (',').utf8Size = 1 := by decide
      rw [h1]
      simp only [List.map_cons, List.sum_cons, List.length_cons] at ih ⊢
      omega

theorem jsonOfSchema_size_le (items : List HistoryItem)
    (hlen : items.length ≤ 51)
    (hit : ∀ it ∈ items, byteLen (jsonOfItem it) ≤ 200) :
    byteLen (jsonOfSchema ⟨STORAGE_VERSION, items⟩) ≤ MAX_STORAGE_SIZE := by
  have hJ : byteLen (joinChar ',' (items.map jsonOfItem)) ≤
      ((items.map jsonOfItem).map byteLen).sum + (items.map jsonOfItem).length :=
    byteLen_joinChar_comma_le _
  have hS : ((items.map jsonOfItem).map byteLen).sum ≤
      ((items.map jsonOfItem).map byteLen).length • 200 :=
    List.sum_le_card_nsmul _ _ (by
      intro x hx
      simp only [List.map_map, List.mem_map, Function.comp] at hx
      obtain ⟨it, hmem, rfl⟩ := hx
      exact hit it hmem)
  simp only [List.length_map, smul_eq_mul] at hJ hS
  have hmax : MAX_STORAGE_SIZE = 5242880 := rfl
  simp only [jsonOfSchema, jsonObj, jsonArr, jmem, STORAGE_VERSION]
  rw [joinChar_cons _ _ _ (by simp)]
  simp only [joinChar, byteLen_cons, byteLen_append]
  have e1 : byteLen (str "version") = 7 := by decide
  have e2 : byteLen (str "items") = 5 := by decide
  have e3 : byteLen (natToStr 1) = 1 := by decide
  have e4 : ('"').utf8Size = 1 := by decide
  have e5 : (':').utf8Size = 1 := by decide
  have e6 : (',').utf8Size = 1 := by decide
  have e7 : ('[').utf8Size = 1 := by decide
  have e8 : (']').utf8Size = 1 := by decide
  have e9 : lb.utf8Size = 1 := by decide
  have e10 : rb.utf8Size = 1 := by decide
  have e11 : byteLen ([] : Str) = 0 := rfl
  omega

theorem foldl_saveToHistory_distinct (colors : ColorConfig) (th : Str)
    (now : Nat) (nid : Str) (ds : List QRData)
    (hdist : ds.Pairwise (fun d1 d2 =>
      ¬(typeTag d1 = typeTag d2 ∧ jsonOfQRData d1 = jsonOfQRData d2)))
    (hsmall : ∀ d ∈ ds,
      byteLen (jsonOfItem ⟨nid, now, typeTag d, d, colors, th⟩) ≤ 200) :
    loadSchema (ds.foldl (fun st d =>
        (saveToHistory d colors th now nid st).2) none) =
      ⟨STORAGE_VERSION, ((ds.reverse).map
        (fun d => (⟨nid, now, typeTag d, d, colors, th⟩ : HistoryItem))).take
          MAX_ITEMS⟩ := by
  induction ds using List.reverseRecOn with
  | nil => rfl
  | append_singleton l d ih =>
    have hpair := (List.pairwise_append.mp hdist)
    have ihl := ih hpair.1 (fun x hx => hsmall x (List.mem_append_left _ hx))
    rw [List.foldl_append, List.foldl_cons, List.foldl_nil]
    set W := ((l.reverse).map
      (fun d => (⟨nid, now, typeTag d, d, colors, th⟩ : HistoryItem))).take
        MAX_ITEMS with hW
    have hany : W.any (fun item => decide (item.type = typeTag d ∧
        jsonOfQRData item.data = jsonOfQRData d)) = false := by
      rw [List.any_eq_false]
      intro item hmem
      have hmem2 : item ∈ (l.reverse).map
          (fun d => (⟨nid, now, typeTag d, d, colors, th⟩ : HistoryItem)) :=
        (List.take_sublist _ _).subset hmem
      obtain ⟨d', hd', rfl⟩ := List.mem_map.mp hmem2
      have hR := hpair.2.2 d' (List.mem_reverse.mp hd') d (List.mem_singleton.mpr rfl)
      simpa using hR
    have hload : loadSchema (l.foldl (fun st d =>
        (saveToHistory d colors th now nid st).2) none) = ⟨STORAGE_VERSION, W⟩ :=
      ihl
    have hitems2 : (if ((⟨nid, now, typeTag d, d, colors, th⟩ : HistoryItem)
          :: W).length > MAX_ITEMS then
        ((⟨nid, now, typeTag d, d, colors, th⟩ : HistoryItem) :: W).take MAX_ITEMS
      else (⟨nid, now, typeTag d, d, colors, th⟩ : HistoryItem) :: W) =
        ((⟨nid, now, typeTag d, d, colors, th⟩ : HistoryItem) :: W).take MAX_ITEMS := by
      split
      · rfl
      · rename_i hlen
        exact (List.take_of_length_le (by omega)).symm
    have htake : ((⟨nid, now, typeTag d, d, colors, th⟩ : HistoryItem) :: W).take
        MAX_ITEMS = (((l ++ [d]).reverse).map
          (fun d => (⟨nid, now, typeTag d, d, colors, th⟩ : HistoryItem))).take
            MAX_ITEMS := by
      rw [List.reverse_append, List.reverse_singleton, List.singleton_append,
        List.map_cons, hW]
      rw [show (MAX_ITEMS : Nat) = 49 + 1 from rfl, List.take_succ_cons,
        List.take_succ_cons, List.take_take]
      norm_num
    have hsize : byteLen (jsonOfSchema ⟨STORAGE_VERSION,
        ((⟨nid, now, typeTag d, d, colors, th⟩ : HistoryItem) :: W).take
          MAX_ITEMS⟩) ≤ MAX_STORAGE_SIZE := by
      apply jsonOfSchema_size_le
      · have := List.length_take MAX_ITEMS
          ((⟨nid, now, typeTag d, d, colors, th⟩ : HistoryItem) :: W)
        rw [this]
        have : (MAX_ITEMS : Nat) = 50 := rfl
        omega
      · intro it hmem
        have hmem2 := (List.take_sublist _ _).subset hmem
        rcases List.mem_cons.mp hmem2 with h | h
        · subst h
          exact hsmall d (List.mem_append_right _ (List.mem_singleton.mpr rfl))
        · have hmem3 : it ∈ (l.reverse).map
              (fun d => (⟨nid, now, typeTag d, d, colors, th⟩ : HistoryItem)) :=
            (List.take_sublist _ _).subset h
          obtain ⟨d', hd', rfl⟩ := List.mem_map.mp hmem3
          exact hsmall d' (List.mem_append_left _ (List.mem_reverse.mp hd'))
    rw [saveToHistory]
    simp only [hload, hany, Bool.false_eq_true, if_false]
    rw [hitems2, ← htake]
    rw [enforceStorageLimit_of_small _ hsize]
    rw [loadSchema_saveSchema _ rfl, htake]

theorem importHistoryFromJSON_success (v : Nat) (hv : v ≠ 0)
    (importedItems : List HistoryItem) (store : Store) :
    importHistoryFromJSON (some ⟨some v, some importedItems⟩) store =
      (true, saveSchema ⟨STORAGE_VERSION, (sortByTimestampDesc
        (mergeImportItems importedItems (loadSchema store).items)).take
          MAX_ITEMS⟩) := by
  rw [importHistoryFromJSON]
  simp [hv]

set_option maxRecDepth 40000 in
/-- C7: the item list has length at most `MAX_ITEMS` (50) after every
mutation — save, delete, clear, import — and the 51-insert scenario: 51
distinct records saved sequentially with a stalled clock leave exactly 50
items, the first-inserted (oldest) record evicted, newest first by
insertion order. -/
theorem c7_max_items (data : QRData) (colors : ColorConfig) (th : Str)
    (now : Nat) (nid : Str) (id : Str) (payload : Option ImportPayload)
    (store : Store) :
    ((loadSchema store).items.length ≤ MAX_ITEMS →
      (loadSchema (saveToHistory data colors th now nid store).2).items.length ≤
        MAX_ITEMS) ∧
    ((loadSchema store).items.length ≤ MAX_ITEMS →
      (loadSchema (deleteHistoryItem id store).2).items.length ≤ MAX_ITEMS) ∧
    (loadSchema (clearHistory store).2).items.length ≤ MAX_ITEMS ∧
    ((loadSchema store).items.length ≤ MAX_ITEMS →
      (loadSchema (importHistoryFromJSON payload store).2).items.length ≤
        MAX_ITEMS) ∧
    (loadSchema scenarioStore).items.length = MAX_ITEMS ∧
    (loadSchema scenarioStore).items.map HistoryItem.data =
      (List.range' 2 50).reverse.map scenarioRecord ∧
    scenarioRecord 1 ∉ (loadSchema scenarioStore).items.map HistoryItem.data := by
  have hscen : loadSchema scenarioStore = ⟨STORAGE_VERSION,
      (((List.range' 1 51).map scenarioRecord).reverse.map
        (fun d => (⟨[], 0, typeTag d, d, scenarioColors, []⟩ : HistoryItem))).take
          MAX_ITEMS⟩ := by
    rw [scenarioStore, ← List.foldl_map scenarioRecord
      (fun st d => (saveToHistory d scenarioColors [] 0 [] st).2)]
    exact foldl_saveToHistory_distinct scenarioColors [] 0 []
      ((List.range' 1 51).map scenarioRecord) (by decide) (by decide)
  refine ⟨?_, ?_, ?_, ?_, ?_, ?_, ?_⟩
  · intro h
    by_cases hdup : (loadSchema store).items.any (fun item =>
        decide (item.type = typeTag data ∧
          jsonOfQRData item.data = jsonOfQRData data)) = true
    · simp only [saveToHistory, hdup, if_true]
      exact h
    · have hd := Bool.eq_false_iff.mpr hdup
      simp only [saveToHistory, hd, Bool.false_eq_true, if_false]
      rw [loadSchema_saveSchema _ (by
        rw [enforceStorageLimit_version]
        exact loadSchema_version store)]
      refine le_trans (enforceStorageLimit_length_le _) ?_
      split
      · rw [List.length_take]
        omega
      · rename_i hlen
        simp only [List.length_cons] at hlen ⊢
        omega
  · intro h
    by_cases hshort : (List.filter (fun item => decide (item.id ≠ id))
        (loadSchema store).items).length < (loadSchema store).items.length
    · simp only [deleteHistoryItem, hshort, if_true]
      rw [loadSchema_saveSchema ⟨(loadSchema store).version,
        (loadSchema store).items.filter (fun item => decide (item.id ≠ id))⟩
        (loadSchema_version store)]
      dsimp only
      have := List.length_filter_le (fun item => decide (item.id ≠ id))
        (loadSchema store).items
      omega
    · simp only [deleteHistoryItem, hshort, if_false]
      exact h
  · rw [clearHistory, loadSchema_saveSchema _ rfl]
    simp [MAX_ITEMS]
  · intro h
    rcases payload with _ | p
    · exact h
    rcases p with ⟨ver, items⟩
    rcases ver with _ | v
    · exact h
    by_cases hv : v = 0
    · subst hv
      simpa [importHistoryFromJSON] using h
    rcases items with _ | importedItems
    · simpa [importHistoryFromJSON, hv] using h
    · rw [importHistoryFromJSON_success v hv importedItems store]
      dsimp only
      rw [loadSchema_saveSchema _ rfl]
      rw [List.length_take]
      simp
  · rw [hscen]
    decide
  · rw [hscen]
    decide
  · rw [hscen]
    decide

/-- C7 witness: the save bound applied to the concrete witness store. -/
theorem c7_witness :
    (loadSchema (saveToHistory (.text (str "z")) scenarioColors [] 0 []
      witnessStore).2).items.length ≤ MAX_ITEMS :=
  (c7_max_items (.text (str "z")) scenarioColors [] 0 [] [] none
    witnessStore).1 (by decide)

/-! ## Claim C8 -/

theorem mergeImportItems_aux (imported : List HistoryItem) :
    ∀ (ex acc : List HistoryItem),
      (ex.map HistoryItem.id).Nodup →
      (∀ e ∈ ex, acc.any (fun item => decide (item.id = e.id)) =
        imported.any (fun item => decide (item.id = e.id))) →
      ex.foldl (fun merged existingItem =>
        if merged.any (fun item => decide (item.id = existingItem.id)) then
          merged
        else merged ++ [existingItem]) acc =
      acc ++ ex.filter (fun e =>
        !imported.any (fun item => decide (item.id = e.id))) := by
  intro ex
  induction ex with
  | nil =>
    intro acc _ _
    simp
  | cons e ex ih =>
    intro acc hnodup hacc
    have hnodup' := List.nodup_cons.mp
      (show (e.id :: ex.map HistoryItem.id).Nodup from by
        rw [List.map_cons] at hnodup; exact hnodup)
    have he := hacc e (List.mem_cons_self _ _)
    rw [List.foldl_cons]
    by_cases hdup : imported.any (fun item => decide (item.id = e.id)) = true
    · rw [show (if acc.any (fun item => decide (item.id = e.id)) = true then acc
          else acc ++ [e]) = acc from by rw [he, hdup]; rfl]
      rw [show (e :: ex).filter (fun e =>
          !imported.any (fun item => decide (item.id = e.id))) =
        ex.filter (fun e =>
          !imported.any (fun item => decide (item.id = e.id))) from by
        rw [List.filter_cons_of_neg]
        simp [hdup]]
      exact ih acc hnodup'.2 (fun e' he' => hacc e' (List.mem_cons_of_mem _ he'))
    · have hdupf : imported.any (fun item => decide (item.id = e.id)) = false :=
        Bool.eq_false_iff.mpr hdup
      rw [show (if acc.any (fun item => decide (item.id = e.id)) = true then acc
          else acc ++ [e]) = acc ++ [e] from by rw [he, hdupf]; rfl]
      rw [show (e :: ex).filter (fun e =>
          !imported.any (fun item => decide (item.id = e.id))) =
        e :: ex.filter (fun e =>
          !imported.any (fun item => decide (item.id = e.id))) from by
        rw [List.filter_cons_of_pos]
        simp [hdupf]]
      rw [ih (acc ++ [e]) hnodup'.2 ?_]
      · simp
      · intro e' he'
        have hne : e.id ≠ e'.id := by
          intro heq
          exact hnodup'.1 (heq ▸ List.mem_map.mpr ⟨e', he', rfl⟩)
        rw [List.any_append, hacc e' (List.mem_cons_of_mem _ he')]
        simp [hne]

/-- C8: a successful import (truthy version, list-typed items) returns
success and persists, at the current schema version, the first
`MAX_ITEMS` entries of the timestamp-descending sort of the merge that
keeps every imported item and appends exactly those existing items whose
id does not occur among the imported ones (overlapping ids are not
duplicated).  Imported items, and existing items with non-overlapping
ids, are members of the sorted merge; the persisted list is sorted
newest-first and holds at most `MAX_ITEMS` items.  (The merge equation
requires the existing store's ids to be distinct, which generated ids
guarantee.) -/
theorem c8_import_merge (v : Nat) (importedItems : List HistoryItem)
    (store : Store) (hv : v ≠ 0)
    (hnodup : ((loadSchema store).items.map HistoryItem.id).Nodup) :
    (importHistoryFromJSON (some ⟨some v, some importedItems⟩) store).1 = true ∧
    (importHistoryFromJSON (some ⟨some v, some importedItems⟩) store).2 =
      saveSchema ⟨STORAGE_VERSION, (sortByTimestampDesc
        (mergedSpec importedItems (loadSchema store).items)).take MAX_ITEMS⟩ ∧
    (∀ it ∈ importedItems, it ∈ sortByTimestampDesc
      (mergedSpec importedItems (loadSchema store).items)) ∧
    (∀ e ∈ (loadSchema store).items, (∀ it ∈ importedItems, it.id ≠ e.id) →
      e ∈ sortByTimestampDesc (mergedSpec importedItems (loadSchema store).items)) ∧
    (loadSchema (importHistoryFromJSON (some ⟨some v, some importedItems⟩)
      store).2).items.Sorted (fun a b => b.timestamp ≤ a.timestamp) ∧
    (loadSchema (importHistoryFromJSON (some ⟨some v, some importedItems⟩)
      store).2).items.length ≤ MAX_ITEMS := by
  have hmerge : mergeImportItems importedItems (loadSchema store).items =
      mergedSpec importedItems (loadSchema store).items := by
    rw [mergeImportItems, mergedSpec]
    exact mergeImportItems_aux importedItems (loadSchema store).items
      importedItems hnodup (fun e _ => rfl)
  have hrun := importHistoryFromJSON_success v hv importedItems store
  have hmem : ∀ x, x ∈ sortByTimestampDesc
      (mergedSpec importedItems (loadSchema store).items) ↔
      x ∈ mergedSpec importedItems (loadSchema store).items := by
    intro x
    exact (List.mergeSort_perm _ _).mem_iff
  have hsorted : (sortByTimestampDesc
      (mergedSpec importedItems (loadSchema store).items)).Pairwise
      (fun a b => b.timestamp ≤ a.timestamp) := by
    have := @List.sorted_mergeSort HistoryItem
      (fun a b : HistoryItem => decide (b.timestamp ≤ a.timestamp))
      (fun a b c h1 h2 => by
        simp only [decide_eq_true_eq] at h1 h2 ⊢
        omega)
      (fun a b => by
        simp only [Bool.or_eq_true, decide_eq_true_eq]
        omega)
      (mergedSpec importedItems (loadSchema store).items)
    exact this.imp (by simp)
  have hpersist : loadSchema (importHistoryFromJSON
      (some ⟨some v, some importedItems⟩) store).2 =
      ⟨STORAGE_VERSION, (sortByTimestampDesc
        (mergedSpec importedItems (loadSchema store).items)).take MAX_ITEMS⟩ := by
    rw [hrun]
    dsimp only
    rw [hmerge, loadSchema_saveSchema _ rfl]
  refine ⟨by rw [hrun], by rw [hrun]; dsimp only; rw [hmerge], ?_, ?_, ?_, ?_⟩
  · intro it hit
    exact (hmem it).mpr (List.mem_append_left _ hit)
  · intro e hmem' hids
    refine (hmem e).mpr (List.mem_append_right _ ?_)
    rw [List.mem_filter]
    refine ⟨hmem', ?_⟩
    simp only [Bool.not_eq_true']
    rw [List.any_eq_false]
    intro it hit
    simp [hids it hit]
  · rw [hpersist]
    exact hsorted.sublist (List.take_sublist _ _)
  · rw [hpersist]
    dsimp only
    rw [List.length_take]
    simp

/-- C8 witness: importing one item over the one-item witness store (ids
distinct). -/
theorem c8_witness :
    (importHistoryFromJSON (some ⟨some 1, some [witnessImportItem]⟩)
      witnessStore).1 = true ∧
    (importHistoryFromJSON (some ⟨some 1, some [witnessImportItem]⟩)
      witnessStore).2 =
      saveSchema ⟨STORAGE_VERSION, (sortByTimestampDesc
        (mergedSpec [witnessImportItem] (loadSchema witnessStore).items)).take
          MAX_ITEMS⟩ ∧
    (∀ it ∈ [witnessImportItem], it ∈ sortByTimestampDesc
      (mergedSpec [witnessImportItem] (loadSchema witnessStore).items)) ∧
    (∀ e ∈ (loadSchema witnessStore).items,
      (∀ it ∈ [witnessImportItem], it.id ≠ e.id) →
      e ∈ sortByTimestampDesc
        (mergedSpec [witnessImportItem] (loadSchema witnessStore).items)) ∧
    (loadSchema (importHistoryFromJSON (some ⟨some 1, some [witnessImportItem]⟩)
      witnessStore).2).items.Sorted (fun a b => b.timestamp ≤ a.timestamp) ∧
    (loadSchema (importHistoryFromJSON (some ⟨some 1, some [witnessImportItem]⟩)
      witnessStore).2).items.length ≤ MAX_ITEMS :=
  c8_import_merge 1 [witnessImportItem] witnessStore (by decide) (by decide)

end QRGen
